import Mathlib

/-!
# Admission analytics dashboard

A shallow embedding of

* `src/server/routes/analytics.ts` (`generateTrends`, `handleAdmissionsAnalytics`),
* `src/client/pages/AdmissionDashboard.jsx` (`load`, `filteredTrends`),
* `src/client/api/analytics.js` (`fetchAdmissionAnalytics`),

together with the part of the ECMAScript `Date` and `Math` built-ins those
functions call.  Time values are integers (milliseconds since the epoch), an
invalid `Date` (time value `NaN`) is `none`, a thrown exception is
`Except.error`.
-/

namespace AdmissionAnalytics

/-! ## ECMAScript time values (ECMA-262, "Date Objects") -/

/-- Milliseconds per day. -/
def msPerDay : Int := 86400000

/-- ECMA-262 `Day(t)`: the day number of a time value, `floor(t / msPerDay)`. -/
def Day (t : Int) : Int := t / msPerDay

/-- ECMA-262 `TimeWithinDay(t)`: `t modulo msPerDay`. -/
def TimeWithinDay (t : Int) : Int := t % msPerDay

/-- ECMA-262 `DaysInYear(y)`. -/
def DaysInYear (y : Int) : Int :=
  if y % 4 ≠ 0 then 365
  else if y % 100 ≠ 0 then 366
  else if y % 400 ≠ 0 then 365
  else 366

/-- ECMA-262 `DayFromYear(y)`: the day number of the first day of year `y`. -/
def DayFromYear (y : Int) : Int :=
  365 * (y - 1970) + (y - 1969) / 4 - (y - 1901) / 100 + (y - 1601) / 400

/-- ECMA-262 `YearFromTime(t)`: the largest `y` with `TimeFromYear(y) ≤ t`,
computed from an estimate that is off by at most one year
(see `DayFromYear_YearFromTime_le` and `lt_DayFromYear_YearFromTime_succ`). -/
def YearFromTime (t : Int) : Int :=
  let d := Day t
  let y := 1970 + (400 * d) / 146097
  if d < DayFromYear y then y - 1
  else if DayFromYear (y + 1) ≤ d then y + 1
  else y

/-- ECMA-262 `InLeapYear(t)`, as 0 or 1. -/
def InLeapYear (t : Int) : Int :=
  if DaysInYear (YearFromTime t) = 366 then 1 else 0

/-- ECMA-262 `DayWithinYear(t)`. -/
def DayWithinYear (t : Int) : Int := Day t - DayFromYear (YearFromTime t)

/-- The table of ECMA-262 `MonthFromTime`: the month number (0 = January ..
11 = December) of the day `d` within a year; `l` is 1 in a leap year. -/
def monthFromDay (d l : Int) : Int :=
  if d < 31 then 0
  else if d < 59 + l then 1
  else if d < 90 + l then 2
  else if d < 120 + l then 3
  else if d < 151 + l then 4
  else if d < 181 + l then 5
  else if d < 212 + l then 6
  else if d < 243 + l then 7
  else if d < 273 + l then 8
  else if d < 304 + l then 9
  else if d < 334 + l then 10
  else 11

/-- ECMA-262 `MonthFromTime(t)`: the month number, 0 = January .. 11 = December. -/
def MonthFromTime (t : Int) : Int := monthFromDay (DayWithinYear t) (InLeapYear t)

/-- Day number within the year of the first day of month `m` (0-based);
`l` is 1 in a leap year.  This is the table of ECMA-262 `DateFromTime`. -/
def monthStart (m : Int) (l : Int) : Int :=
  if m = 0 then 0
  else if m = 1 then 31
  else if m = 2 then 59 + l
  else if m = 3 then 90 + l
  else if m = 4 then 120 + l
  else if m = 5 then 151 + l
  else if m = 6 then 181 + l
  else if m = 7 then 212 + l
  else if m = 8 then 243 + l
  else if m = 9 then 273 + l
  else if m = 10 then 304 + l
  else 334 + l

/-- ECMA-262 `DateFromTime(t)`: the day of the month, 1 .. 31. -/
def DateFromTime (t : Int) : Int :=
  DayWithinYear t - monthStart (MonthFromTime t) (InLeapYear t) + 1

/-- ECMA-262 `MakeDay(year, month, date)` for integral arguments: the day
number of the first day of month `month` of `year` (months carry into
years), plus `date - 1`. -/
def MakeDay (year month date : Int) : Int :=
  let ym := year + month / 12
  let mn := month % 12
  DayFromYear ym + monthStart mn (if DaysInYear ym = 366 then 1 else 0) + date - 1

/-- ECMA-262 `MakeTime(hour, min, sec, ms)` for integral arguments. -/
def MakeTime (hour min sec ms : Int) : Int :=
  hour * 3600000 + min * 60000 + sec * 1000 + ms

/-- ECMA-262 `MakeDate(day, time)`. -/
def MakeDate (day time : Int) : Int := day * msPerDay + time

/-- ECMA-262 `TimeClip(time)`: `NaN` (here `none`) beyond 8.64e15 ms from the
epoch.  A time value that a double cannot hold exactly is far beyond that
bound, so integer arithmetic before the clip loses nothing. -/
def TimeClip (time : Int) : Option Int :=
  if time.natAbs ≤ 8640000000000000 then some time else none

/-- ECMA-262 `HourFromTime`, `MinFromTime`, `SecFromTime`, `msFromTime`. -/
def HourFromTime (t : Int) : Int := (t / 3600000) % 24

/-- ECMA-262 `MinFromTime(t)`. -/
def MinFromTime (t : Int) : Int := (t / 60000) % 60

/-- ECMA-262 `SecFromTime(t)`. -/
def SecFromTime (t : Int) : Int := (t / 1000) % 60

/-- ECMA-262 `msFromTime(t)`. -/
def msFromTime (t : Int) : Int := t % 1000

/-- The host time zone: ECMA-262 `LocalTZA(t, isUTC)`, the offset of local
time from UTC in milliseconds, looked up at the UTC time value `t`
(`isUTC = true`) or at the local time value `t` (`isUTC = false`).  It is
implementation-defined, so it is a parameter of everything that reads local
time. -/
abbrev TimeZone := Int → Bool → Int

/-- A zone whose offset never changes (UTC is `fixedZone 0`). -/
def fixedZone (offset : Int) : TimeZone := fun _ _ => offset

/-- The zone Europe/Berlin over the year 2024: UTC+1, and UTC+2 (summer time)
from 2024-03-31T01:00:00Z until 2024-10-27T01:00:00Z.  A local time that the
change skips or repeats is read with the offset in force before the change,
as ECMA-262 prescribes. -/
def europeBerlin2024 : TimeZone := fun t isUTC =>
  if isUTC then
    if 1711846800000 ≤ t ∧ t < 1729990800000 then 7200000 else 3600000
  else
    if 1711846800000 + 7200000 ≤ t ∧ t < 1729990800000 + 7200000 then 7200000 else 3600000

/-- The zone Atlantic/Azores over the year 2024: UTC-1, and UTC+0 (summer time)
from 2024-03-31T01:00:00Z until 2024-10-27T01:00:00Z, read as
`europeBerlin2024` is. -/
def atlanticAzores2024 : TimeZone := fun t isUTC =>
  if isUTC then
    if 1711846800000 ≤ t ∧ t < 1729990800000 then 0 else -3600000
  else
    if 1711846800000 ≤ t ∧ t < 1729990800000 then 0 else -3600000

/-- ECMA-262 `LocalTime(t)`. -/
def LocalTime (tz : TimeZone) (t : Int) : Int := t + tz t true

/-- ECMA-262 `UTC(t)`. -/
def UTC (tz : TimeZone) (t : Int) : Int := t - tz t false

/-- The change of the UTC offset between the instant `today` and the same
local wall-clock time `i` days earlier: the offset in force at `today` minus
the offset with which that earlier local time is read.  It is 0 when the
offset does not change in between. -/
def offsetShift (tz : TimeZone) (today : Int) (i : Nat) : Int :=
  tz today true - tz (LocalTime tz today - (i : Int) * msPerDay) false

/-- The change of offset over `i` days does not carry the UTC time of day of
`today` across midnight: `0 ≤ TimeWithinDay(today) + offsetShift < msPerDay`. -/
def keepsUtcDay (tz : TimeZone) (today : Int) (i : Nat) : Bool :=
  decide (0 ≤ TimeWithinDay today + offsetShift tz today i ∧
    TimeWithinDay today + offsetShift tz today i < msPerDay)

/-! ## The `Date` methods the program calls

A `Date` object is its time value: `some t`, or `none` for an invalid date
(time value `NaN`). -/

/-- The method `Date.prototype.getDate`: the day of the month in local time. -/
def getDate (tz : TimeZone) (tv : Option Int) : Option Int :=
  tv.map fun t => DateFromTime (LocalTime tz t)

/-- The method `Date.prototype.setDate(date)`: the new time value.  The year,
the month and the time within the day of the LOCAL time are kept, the day of
the month is replaced by `dt`, and the result is converted back to UTC. -/
def setDate (tz : TimeZone) (tv : Option Int) (dt : Option Int) : Option Int :=
  match tv, dt with
  | some t, some dt =>
      let t := LocalTime tz t
      let newDate := MakeDate (MakeDay (YearFromTime t) (MonthFromTime t) dt) (TimeWithinDay t)
      TimeClip (UTC tz newDate)
  | _, _ => none

/-- The method `Date.prototype.setHours(hour, min, sec, ms)`: the new time
value; the local day is kept, the local time within it is replaced. -/
def setHours (tz : TimeZone) (tv : Option Int) (hour min sec ms : Int) : Option Int :=
  match tv with
  | some t =>
      let t := LocalTime tz t
      let date := MakeDate (Day t) (MakeTime hour min sec ms)
      TimeClip (UTC tz date)
  | none => none

/-- The character of a decimal digit. -/
def digitChar (n : Int) : Char :=
  if n = 0 then '0' else if n = 1 then '1' else if n = 2 then '2'
  else if n = 3 then '3' else if n = 4 then '4' else if n = 5 then '5'
  else if n = 6 then '6' else if n = 7 then '7' else if n = 8 then '8'
  else '9'

/-- The value of a decimal digit character; `none` for any other character. -/
def digitVal (c : Char) : Option Int :=
  if c = '0' then some 0 else if c = '1' then some 1 else if c = '2' then some 2
  else if c = '3' then some 3 else if c = '4' then some 4 else if c = '5' then some 5
  else if c = '6' then some 6 else if c = '7' then some 7 else if c = '8' then some 8
  else if c = '9' then some 9 else none

/-- Two decimal digits, zero padded. -/
def pad2 (n : Int) : List Char := [digitChar (n / 10 % 10), digitChar (n % 10)]

/-- Three decimal digits, zero padded. -/
def pad3 (n : Int) : List Char :=
  [digitChar (n / 100 % 10), digitChar (n / 10 % 10), digitChar (n % 10)]

/-- The year of the ECMA-262 date-time string format: four digits for the
years 0 to 9999, otherwise a sign and six digits. -/
def yearChars (y : Int) : List Char :=
  if 0 ≤ y ∧ y ≤ 9999 then
    [digitChar (y / 1000 % 10), digitChar (y / 100 % 10), digitChar (y / 10 % 10),
     digitChar (y % 10)]
  else
    let a : Int := y.natAbs
    [if 0 ≤ y then '+' else '-',
     digitChar (a / 100000 % 10), digitChar (a / 10000 % 10), digitChar (a / 1000 % 10),
     digitChar (a / 100 % 10), digitChar (a / 10 % 10), digitChar (a % 10)]

/-- The characters of the ECMA-262 date-time string `YYYY-MM-DDTHH:mm:ss.sssZ`
of the time value `t`, in UTC. -/
def isoChars (t : Int) : List Char :=
  yearChars (YearFromTime t) ++ ['-'] ++ pad2 (MonthFromTime t + 1) ++ ['-']
    ++ pad2 (DateFromTime t) ++ ['T'] ++ pad2 (HourFromTime t) ++ [':']
    ++ pad2 (MinFromTime t) ++ [':'] ++ pad2 (SecFromTime t) ++ ['.']
    ++ pad3 (msFromTime t) ++ ['Z']

/-- The method `Date.prototype.toISOString`: `YYYY-MM-DDTHH:mm:ss.sssZ` in UTC;
throws a `RangeError` on an invalid date. -/
def toISOString (tv : Option Int) : Except String String :=
  match tv with
  | none => .error "RangeError: Invalid time value"
  | some t => .ok (String.mk (isoChars t))

/-- The method `String.prototype.slice(start, end)` for indices
`0 ≤ start ≤ end` (the strings here are ASCII, one code unit per character). -/
def slice (s : String) (start stop : Nat) : String :=
  String.mk ((s.data.drop start).take (stop - start))

/-- A calendar date: the three fields of a `YYYY-MM-DD` string. -/
structure CalendarDate where
  year : Int
  month : Int
  day : Int
deriving DecidableEq, Repr

/-- Number of days of month `m` (1 .. 12) of year `y`. -/
def daysInMonth (y m : Int) : Int :=
  if m = 2 then (if DaysInYear y = 366 then 29 else 28)
  else if m = 4 ∨ m = 6 ∨ m = 9 ∨ m = 11 then 30
  else 31

/-- The calendar date a string names, when the string is a date-only form
`YYYY-MM-DD` of the ECMA-262 date-time string format with a month 01 .. 12 and
a day that exists in that month; `none` otherwise. -/
def calendarDate (s : String) : Option CalendarDate :=
  match s.data with
  | [y1, y2, y3, y4, '-', m1, m2, '-', d1, d2] =>
      match digitVal y1, digitVal y2, digitVal y3, digitVal y4,
            digitVal m1, digitVal m2, digitVal d1, digitVal d2 with
      | some a, some b, some c, some d, some e, some f, some g, some h =>
          let y := a * 1000 + b * 100 + c * 10 + d
          let m := e * 10 + f
          let dd := g * 10 + h
          if 1 ≤ m ∧ m ≤ 12 ∧ 1 ≤ dd ∧ dd ≤ daysInMonth y m then some ⟨y, m, dd⟩ else none
      | _, _, _, _, _, _, _, _ => none
  | _ => none

/-- The year and the month a string names when it is the form `±YYYYYY-MM`
of the ECMA-262 date-time string format: an expanded year of six digits with
its sign and a month 01 .. 12 (the year `-000000` is not allowed).  These are
the ten characters `toISOString().slice(0, 10)` gives outside the years 0000
to 9999. -/
def expandedYearMonth (s : String) : Option (Int × Int) :=
  match s.data with
  | [sg, y1, y2, y3, y4, y5, y6, '-', m1, m2] =>
      match digitVal y1, digitVal y2, digitVal y3, digitVal y4, digitVal y5, digitVal y6,
            digitVal m1, digitVal m2 with
      | some a, some b, some c, some d, some e, some f, some g, some h =>
          let y := a * 100000 + b * 10000 + c * 1000 + d * 100 + e * 10 + f
          let m := g * 10 + h
          if sg = '+' ∧ 1 ≤ m ∧ m ≤ 12 then some (y, m)
          else if sg = '-' ∧ 1 ≤ m ∧ m ≤ 12 ∧ y ≠ 0 then some (-y, m)
          else none
      | _, _, _, _, _, _, _, _ => none
  | _ => none

/-- The rest of `Date.parse`: the time value (`none` is `NaN`) of a string that
is neither a `YYYY-MM-DD` with a day its month has nor a `±YYYYYY-MM`.  For a
string outside the date-time string format ECMA-262 leaves it to the
implementation, so it is a parameter of everything that parses a date. -/
abbrev DateParseFallback := String → Option Int

/-- The constructor `new Date(string)`: midnight UTC of the calendar date for
a date-only string `YYYY-MM-DD`, midnight UTC of the first day of the month
for a string `±YYYYYY-MM`, and what `fallback` gives for any other string. -/
def newDateOfString (fallback : DateParseFallback) (s : String) : Option Int :=
  match calendarDate s with
  | some c => TimeClip (MakeDate (MakeDay c.year (c.month - 1) c.day) 0)
  | none =>
      match expandedYearMonth s with
      | some (y, m) => TimeClip (MakeDate (MakeDay y (m - 1) 1) 0)
      | none => fallback s

/-- The relational operator `a < b` on two `Date` objects: their time values
are compared, and a comparison with `NaN` is false. -/
def dateLt (a b : Option Int) : Bool :=
  match a, b with
  | some x, some y => decide (x < y)
  | _, _ => false

/-- The calendar date one day after `c`. -/
def nextCalendarDate (c : CalendarDate) : CalendarDate :=
  if c.day < daysInMonth c.year c.month then { c with day := c.day + 1 }
  else if c.month < 12 then { c with month := c.month + 1, day := 1 }
  else { year := c.year + 1, month := 1, day := 1 }

/-- The UTC calendar date of a time value. -/
def utcCalendarDate (t : Int) : CalendarDate :=
  { year := YearFromTime t, month := MonthFromTime t + 1, day := DateFromTime t }

/-! ## Double-precision arithmetic used by the responder

`Math.round(totalApplicants * 0.72)` is computed in IEEE 754 binary64.  A
positive finite double is `m * 2 ^ e` with `2 ^ 52 ≤ m < 2 ^ 53`; overflow and
subnormals cannot occur for the magnitudes of this program and are not
modelled. -/

/-- A positive finite binary64 value `m * 2 ^ e`. -/
structure F64 where
  m : Nat
  e : Int
deriving DecidableEq, Repr

/-- The quotient `n / d` rounded to the nearest integer, ties to even. -/
def roundNearestEven (n d : Nat) : Nat :=
  let q := n / d
  let r := n % d
  if 2 * r < d then q
  else if d < 2 * r then q + 1
  else if q % 2 = 0 then q else q + 1

/-- The loop of `ilog2`: `fuel` bounds the number of halvings. -/
def ilog2Loop : Nat → Nat → Nat
  | 0, _ => 0
  | fuel + 1, n => if n < 2 then 0 else ilog2Loop fuel (n / 2) + 1

/-- The position of the highest set bit of `n`, `floor(log2 n)` for `0 < n`
(`n` halvings always suffice). -/
def ilog2 (n : Nat) : Nat := ilog2Loop n n

/-- The double nearest to the positive rational `n / d * 2 ^ x`
(round to nearest, ties to even). -/
def F64.round (n d : Nat) (x : Int) : F64 :=
  -- `n / d` lies in `[2 ^ (k - 1), 2 ^ (k + 1))`
  let k : Int := (ilog2 n : Int) - (ilog2 d : Int)
  -- scale by `2 ^ (-s)` so that the quotient lies in `[2 ^ 52, 2 ^ 53)`
  let s : Int := if n * 2 ^ (52 - k).toNat < d * 2 ^ (52 + (k - 52).toNat) then k - 53 else k - 52
  let num := n * 2 ^ (-s).toNat
  let den := d * 2 ^ s.toNat
  let m := roundNearestEven num den
  if m = 2 ^ 53 then ⟨2 ^ 52, s + x + 1⟩ else ⟨m, s + x⟩

/-- The double of a positive integer literal or integer-valued number. -/
def F64.ofNat (n : Nat) : F64 := F64.round n 1 0

/-- The double of a decimal literal `n / d` (for `0.72`: `72 / 100`). -/
def F64.ofDecimal (n d : Nat) : F64 := F64.round n d 0

/-- The product `a * b` of two doubles, rounded to nearest. -/
def F64.mul (a b : F64) : F64 := F64.round (a.m * b.m) 1 (a.e + b.e)

/-- The function `Math.round(x)` on a positive double: `floor(x + 0.5)`. -/
def MathRound (x : F64) : Int :=
  if 0 ≤ x.e then (x.m * 2 ^ x.e.toNat : Nat)
  else ((2 * x.m + 2 ^ (-x.e).toNat) / (2 * 2 ^ (-x.e).toNat) : Nat)

/-! ## The analytics responder (`src/server/routes/analytics.ts`) -/

/-- One sample of the daily series: `{ date, applications }`. -/
structure TrendPoint where
  date : String
  applications : Int
deriving DecidableEq, Repr

/-- One row of the per-program table: `{ program, applications }`. -/
structure ProgramCount where
  program : String
  applications : Int
deriving DecidableEq, Repr

/-- The JSON document the responder sends. -/
structure AdmissionsSnapshot where
  totalApplicants : Int
  verifiedApplicants : Int
  rejectedApplicants : Int
  perProgram : List ProgramCount
  trends : List TrendPoint
  generatedAt : String
deriving DecidableEq, Repr

/-- The value of `Math.round(40 * Math.sin((i / days) * Math.PI * 2))` for the
loop index `i` and the window `days`.  `Math.sin` is an implementation-
approximated floating-point function, so the rounded term is a parameter of
the generator. -/
abbrev SinTerm := Nat → Nat → Int

/-- The rounded sine term with `sin` taken as the real sine and `Math.round(x)`
as `floor(x + 1/2)`. -/
noncomputable def realSinTerm : SinTerm := fun i days =>
  ⌊40 * Real.sin (((i : ℝ) / (days : ℝ)) * Real.pi * 2) + 1 / 2⌋

/-- The `Date` `d` of the loop body for the index `i`:
`const d = new Date(today); d.setDate(today.getDate() - i);`. -/
def dateAt (tz : TimeZone) (today : Int) (i : Nat) : Option Int :=
  setDate tz (some today) ((getDate tz (some today)).map fun g => g - (i : Int))

/-- The value of `Math.max(10, base + noise)` of the loop body for the index
`i` and the window `days`. -/
def applicationsAt (sinTerm : SinTerm) (days i : Nat) : Int :=
  -- const base = 60 + Math.round(40 * Math.sin((i / days) * Math.PI * 2));
  let base : Int := 60 + sinTerm i days
  -- const noise = Math.round(((i % 5) - 2) * 3);
  let noise : Int := (((i % 5 : Nat) : Int) - 2) * 3
  -- const applications = Math.max(10, base + noise);
  max 10 (base + noise)

/-- The body of the loop of `generateTrends` for the index `i`: the point it
pushes, or the `RangeError` of `toISOString`. -/
def trendPointAt (sinTerm : SinTerm) (tz : TimeZone) (today : Int) (days i : Nat) :
    Except String TrendPoint :=
  let d := dateAt tz today i
  let applications := applicationsAt sinTerm days i
  -- data.push({ date: d.toISOString().slice(0, 10), applications });
  match toISOString d with
  | .error e => .error e
  | .ok iso => .ok { date := slice iso 0 10, applications := applications }

/-- The loop `for (let i = days - 1; i >= 0; i--)` of `generateTrends` with
`n` iterations left (the next index is `n - 1`) and `data` pushed so far. -/
def generateTrendsLoop (sinTerm : SinTerm) (tz : TimeZone) (today : Int) (days : Nat) :
    Nat → List TrendPoint → Except String (List TrendPoint)
  | 0, data => .ok data
  | i + 1, data =>
      match trendPointAt sinTerm tz today days i with
      | .error e => .error e
      | .ok p => generateTrendsLoop sinTerm tz today days i (data ++ [p])

/-- The function `generateTrends(days)`; `today` is the time value that
`new Date()` reads from the clock, `tz` the time zone of the host. -/
def generateTrends (sinTerm : SinTerm) (tz : TimeZone) (today : Int) (days : Nat) :
    Except String (List TrendPoint) :=
  generateTrendsLoop sinTerm tz today days days []

/-- The constant table `perProgram` of the handler. -/
def perProgram : List ProgramCount :=
  [ { program := "Computer Science", applications := 1180 },
    { program := "Mechanical Engineering", applications := 640 },
    { program := "Business Administration", applications := 520 },
    { program := "Psychology", applications := 410 },
    { program := "Biology", applications := 360 } ]

/-- The handler `handleAdmissionsAnalytics`: the snapshot passed to `res.json`,
or the exception that escapes.  The clock is read twice: `today` inside
`generateTrends`, `stamp` for `generatedAt`. -/
def handleAdmissionsAnalytics (sinTerm : SinTerm) (tz : TimeZone) (today stamp : Int) :
    Except String AdmissionsSnapshot :=
  -- const totalApplicants = perProgram.reduce((sum, p) => sum + p.applications, 0);
  let totalApplicants : Int := perProgram.foldl (fun sum p => sum + p.applications) 0
  -- const verifiedApplicants = Math.round(totalApplicants * 0.72);
  let verifiedApplicants :=
    MathRound (F64.mul (F64.ofNat totalApplicants.toNat) (F64.ofDecimal 72 100))
  -- const rejectedApplicants = Math.round(totalApplicants * 0.18);
  let rejectedApplicants :=
    MathRound (F64.mul (F64.ofNat totalApplicants.toNat) (F64.ofDecimal 18 100))
  -- const trends = generateTrends(45);
  match generateTrends sinTerm tz today 45 with
  | .error e => .error e
  | .ok trends =>
      -- generatedAt: new Date().toISOString()
      match toISOString (some stamp) with
      | .error e => .error e
      | .ok generatedAt =>
          .ok { totalApplicants := totalApplicants
                verifiedApplicants := verifiedApplicants
                rejectedApplicants := rejectedApplicants
                perProgram := perProgram
                trends := trends
                generatedAt := generatedAt }

/-! ## Properties of a daily series -/

/-- The date of `q` is the calendar date right after the date of `p`. -/
def consecutiveDates (p q : TrendPoint) : Bool :=
  match calendarDate p.date with
  | some c => decide (calendarDate q.date = some (nextCalendarDate c))
  | none => false

/-- From each point to the next the date advances by exactly one calendar
day. -/
def datesContiguous : List TrendPoint → Bool
  | p :: q :: rest => consecutiveDates p q && datesContiguous (q :: rest)
  | _ => true

/-- The last point of the series carries the calendar date `c`. -/
def endsOn (pts : List TrendPoint) (c : CalendarDate) : Bool :=
  match pts.getLast? with
  | some p => decide (calendarDate p.date = some c)
  | none => false

/-! ## The dashboard page (`src/client/pages/AdmissionDashboard.jsx`) -/

/-- The response object of `axios.get`: only its `data` field is read. -/
structure AxiosResponse where
  data : AdmissionsSnapshot
deriving DecidableEq, Repr

/-- The function `fetchAdmissionAnalytics` of `src/client/api/analytics.js`:
`const { data } = await axios.get(...); return data;`.  The argument is the
outcome of the request: a response, or the reason of the rejection. -/
def fetchAdmissionAnalytics (request : Except String AxiosResponse) :
    Except String AdmissionsSnapshot :=
  match request with
  | .ok response => .ok response.data
  | .error reason => .error reason

/-- The `useState` cells of `AdmissionDashboard`; `fromStr` and `toStr` are
the cells `from` and `to`. -/
structure DashboardState where
  data : Option AdmissionsSnapshot
  loading : Bool
  error : String
  fromStr : String
  toStr : String
deriving DecidableEq, Repr

/-- The initial state: `useState(null)`, `useState(false)`, `useState("")`. -/
def DashboardState.initial : DashboardState :=
  { data := none, loading := false, error := "", fromStr := "", toStr := "" }

/-- The setter `setData`. -/
def setData (s : DashboardState) (d : Option AdmissionsSnapshot) : DashboardState :=
  { s with data := d }

/-- The setter `setLoading`. -/
def setLoading (s : DashboardState) (b : Bool) : DashboardState :=
  { s with loading := b }

/-- The setter `setError`. -/
def setError (s : DashboardState) (e : String) : DashboardState :=
  { s with error := e }

/-- The function `load`: the state after the `try` / `catch` / `finally` has
run to its end, from the state `s` it started in and the outcome of the
request. -/
def load (request : Except String AxiosResponse) (s : DashboardState) : DashboardState :=
  -- try { setLoading(true); setError("");
  let s := setLoading s true
  let s := setError s ""
  let s :=
    match fetchAdmissionAnalytics request with
    -- const d = await fetchAdmissionAnalytics(); setData(d);
    | .ok d => setData s (some d)
    -- } catch (e) { setError("Failed to fetch analytics");
    | .error _ => setError s "Failed to fetch analytics"
  -- } finally { setLoading(false); }
  setLoading s false

/-- The memo `filteredTrends`; `tz` is the time zone of the browser,
`fallback` the implementation-defined part of its date parser, `fromStr` and
`toStr` the state cells `from` and `to`, the values of the two date inputs
(the empty string when unset). -/
def filteredTrends (tz : TimeZone) (fallback : DateParseFallback)
    (data : Option AdmissionsSnapshot) (fromStr toStr : String) : List TrendPoint :=
  match data with
  -- if (!data?.trends) return [];
  | none => []
  | some snapshot =>
      -- const fromDate = from ? new Date(from) : null;
      let fromDate : Option (Option Int) :=
        if fromStr ≠ "" then some (newDateOfString fallback fromStr) else none
      -- const toDate = to ? new Date(to) : null;
      let toDate : Option (Option Int) :=
        if toStr ≠ "" then some (newDateOfString fallback toStr) else none
      snapshot.trends.filter fun t =>
        -- const d = new Date(t.date);
        let d := newDateOfString fallback t.date
        -- if (fromDate && d < fromDate) return false;
        if (match fromDate with
            | some f => dateLt d f
            | none => false) then false
        else
          match toDate with
          | some td =>
              -- const end = new Date(toDate); end.setHours(23, 59, 59, 999);
              let endOfDay := setHours tz td 23 59 59 999
              -- if (d > end) return false;
              if dateLt endOfDay d then false else true
          | none => true

/-! ## The specification side of the date filter -/

/-- Calendar order: `a` is on or before `b`. -/
def CalendarDate.le (a b : CalendarDate) : Bool :=
  decide (a.year < b.year ∨ (a.year = b.year ∧
    (a.month < b.month ∨ (a.month = b.month ∧ a.day ≤ b.day))))

/-- The comparison `a ≤ b` of two `YYYY-MM-DD` strings as calendar dates. -/
def dateStringLe (a b : String) : Bool :=
  match calendarDate a, calendarDate b with
  | some x, some y => x.le y
  | _, _ => false

/-- The filter as the specification words it: the points `t` with
(`from` is empty or `from ≤ t.date`) and (`to` is empty or `t.date ≤ to`),
in the original order. -/
def filteredTrendsSpec (trends : List TrendPoint) (fromStr toStr : String) : List TrendPoint :=
  trends.filter fun t =>
    (fromStr = "" || dateStringLe fromStr t.date) && (toStr = "" || dateStringLe t.date toStr)

/-! ## Double-precision values -/

/-- The loop of `ilog2` finds the highest set bit whenever the fuel is at
least `n`. -/
theorem ilog2Loop_spec : ∀ (fuel n : Nat), 0 < n → n ≤ fuel →
    2 ^ ilog2Loop fuel n ≤ n ∧ n < 2 ^ (ilog2Loop fuel n + 1) := by
  intro fuel
  induction fuel with
  | zero => intro n h0 h; omega
  | succ fuel ih =>
      intro n h0 h
      unfold ilog2Loop
      by_cases h2 : n < 2
      · rw [if_pos h2]
        simp only [pow_zero, zero_add, pow_one]
        omega
      · rw [if_neg h2]
        obtain ⟨h3, h4⟩ := ih (n / 2) (by omega) (by omega)
        rw [pow_succ] at h4 ⊢
        rw [pow_succ (2 : Nat) (ilog2Loop fuel (n / 2) + 1), pow_succ]
        omega

/-- The function `ilog2` is the floor of the binary logarithm. -/
theorem ilog2_spec (n : Nat) (h : 0 < n) : 2 ^ ilog2 n ≤ n ∧ n < 2 ^ (ilog2 n + 1) :=
  ilog2Loop_spec n n h (le_refl n)

set_option maxRecDepth 100000 in
/-- The doubles of the handler: `0.72` is `0x1.70a3d70a3d70ap-1`, `0.18` is
`0x1.70a3d70a3d70ap-3`, `3110 * 0.72` is `0x1.17e6666666666p+11`
(the double nearest to 2239.2) and `3110 * 0.18` is `0x1.17e6666666666p+9`
(the double nearest to 559.8). -/
theorem F64_handler_values :
    F64.ofDecimal 72 100 = ⟨0x170a3d70a3d70a, -53⟩ ∧
    F64.ofDecimal 18 100 = ⟨0x170a3d70a3d70a, -55⟩ ∧
    F64.ofNat 3110 = ⟨3110 * 2 ^ 41, -41⟩ ∧
    F64.mul (F64.ofNat 3110) (F64.ofDecimal 72 100) = ⟨0x117e6666666666, -41⟩ ∧
    F64.mul (F64.ofNat 3110) (F64.ofDecimal 18 100) = ⟨0x117e6666666666, -43⟩ := by
  decide

/-! ## Date arithmetic -/

theorem DayFromYear_YearFromTime_le (t : Int) : DayFromYear (YearFromTime t) ≤ Day t := by
  unfold YearFromTime DayFromYear
  simp only
  split_ifs <;> omega

theorem lt_DayFromYear_YearFromTime_succ (t : Int) :
    Day t < DayFromYear (YearFromTime t + 1) := by
  unfold YearFromTime
  simp only
  split_ifs with h1 h2
  · rw [Int.sub_add_cancel]; exact h1
  · unfold DayFromYear at *; omega
  · omega

theorem DayFromYear_succ (y : Int) : DayFromYear (y + 1) = DayFromYear y + DaysInYear y := by
  unfold DayFromYear DaysInYear
  split_ifs <;> omega

theorem DayFromYear_mono {a b : Int} (h : a ≤ b) : DayFromYear a ≤ DayFromYear b := by
  unfold DayFromYear
  omega

theorem DaysInYear_cases (y : Int) : DaysInYear y = 365 ∨ DaysInYear y = 366 := by
  unfold DaysInYear
  split_ifs <;> simp

theorem DayWithinYear_nonneg (t : Int) : 0 ≤ DayWithinYear t := by
  have := DayFromYear_YearFromTime_le t
  unfold DayWithinYear
  omega

theorem DayWithinYear_lt (t : Int) : DayWithinYear t < DaysInYear (YearFromTime t) := by
  have h := lt_DayFromYear_YearFromTime_succ t
  rw [DayFromYear_succ] at h
  unfold DayWithinYear
  omega

theorem monthFromDay_range (d l : Int) : 0 ≤ monthFromDay d l ∧ monthFromDay d l ≤ 11 := by
  unfold monthFromDay
  omega

theorem MonthFromTime_range (t : Int) : 0 ≤ MonthFromTime t ∧ MonthFromTime t ≤ 11 :=
  monthFromDay_range _ _

theorem MakeDay_fields (t dt : Int) :
    MakeDay (YearFromTime t) (MonthFromTime t) dt = Day t + (dt - DateFromTime t) := by
  have hm := MonthFromTime_range t
  have h1 : MonthFromTime t / 12 = 0 := by omega
  have h2 : MonthFromTime t % 12 = MonthFromTime t := by omega
  unfold MakeDay DateFromTime DayWithinYear InLeapYear
  simp only [h1, h2, add_zero]
  omega

theorem Day_add_TimeWithinDay (t : Int) : Day t * msPerDay + TimeWithinDay t = t := by
  unfold Day TimeWithinDay msPerDay
  omega

/-- In a zone of constant offset, `setDate(getDate() - i)` moves the time
value back by exactly `i` days. -/
theorem setDate_fixedZone (off today i : Int) :
    setDate (fixedZone off) (some today)
        ((getDate (fixedZone off) (some today)).map fun g => g - i)
      = TimeClip (today - i * msPerDay) := by
  simp only [setDate, getDate, Option.map, LocalTime, UTC, fixedZone, MakeDate, MakeDay_fields]
  congr 1
  have := Day_add_TimeWithinDay (today + off)
  unfold msPerDay at *
  linarith

/-! ## Formatting and parsing dates -/

theorem digitVal_digitChar (n : Int) (h0 : 0 ≤ n) (h9 : n ≤ 9) : digitVal (digitChar n) = some n := by
  interval_cases n <;> rfl

theorem calendarDate_mk (y m d : Int) (hy0 : 0 ≤ y) (hy : y ≤ 9999) (hm1 : 1 ≤ m) (hm : m ≤ 12)
    (hd1 : 1 ≤ d) (hd : d ≤ daysInMonth y m) :
    calendarDate (String.mk (yearChars y ++ ['-'] ++ pad2 m ++ ['-'] ++ pad2 d))
      = some ⟨y, m, d⟩ := by
  have hd31 : d ≤ 31 := by
    unfold daysInMonth at hd
    omega
  have e1 := digitVal_digitChar (y / 1000 % 10) (by omega) (by omega)
  have e2 := digitVal_digitChar (y / 100 % 10) (by omega) (by omega)
  have e3 := digitVal_digitChar (y / 10 % 10) (by omega) (by omega)
  have e4 := digitVal_digitChar (y % 10) (by omega) (by omega)
  have e5 := digitVal_digitChar (m / 10 % 10) (by omega) (by omega)
  have e6 := digitVal_digitChar (m % 10) (by omega) (by omega)
  have e7 := digitVal_digitChar (d / 10 % 10) (by omega) (by omega)
  have e8 := digitVal_digitChar (d % 10) (by omega) (by omega)
  have hy' : y / 1000 % 10 * 1000 + y / 100 % 10 * 100 + y / 10 % 10 * 10 + y % 10 = y := by omega
  have hm' : m / 10 % 10 * 10 + m % 10 = m := by omega
  have hd' : d / 10 % 10 * 10 + d % 10 = d := by omega
  simp only [yearChars, hy0, hy, and_self, if_true, pad2, List.cons_append, List.nil_append,
    calendarDate, e1, e2, e3, e4, e5, e6, e7, e8, hy', hm', hd', hm1, hm, hd1, hd]

theorem slice_isoChars (t : Int) (hy0 : 0 ≤ YearFromTime t) (hy : YearFromTime t ≤ 9999) :
    slice (String.mk (isoChars t)) 0 10
      = String.mk (yearChars (YearFromTime t) ++ ['-'] ++ pad2 (MonthFromTime t + 1) ++ ['-']
          ++ pad2 (DateFromTime t)) := by
  simp [slice, isoChars, yearChars, hy0, hy, pad2]

theorem InLeapYear_cases (t : Int) :
    (InLeapYear t = 0 ∧ DaysInYear (YearFromTime t) = 365) ∨
    (InLeapYear t = 1 ∧ DaysInYear (YearFromTime t) = 366) := by
  unfold InLeapYear
  rcases DaysInYear_cases (YearFromTime t) with h | h <;> simp [h]

theorem monthFromDay_eq_0 (d l : Int) (h' : d < 31) :
    monthFromDay d l = 0 := by
  unfold monthFromDay
  omega

theorem monthFromDay_eq_1 (d l : Int) (h : 31 ≤ d) (h' : d < 59 + l) :
    monthFromDay d l = 1 := by
  unfold monthFromDay
  omega

theorem monthFromDay_eq_2 (d l : Int) (hl : 0 ≤ l) (h : 59 + l ≤ d) (h' : d < 90 + l) :
    monthFromDay d l = 2 := by
  unfold monthFromDay
  omega

theorem monthFromDay_eq_3 (d l : Int) (hl : 0 ≤ l) (h : 90 + l ≤ d) (h' : d < 120 + l) :
    monthFromDay d l = 3 := by
  unfold monthFromDay
  omega

theorem monthFromDay_eq_4 (d l : Int) (hl : 0 ≤ l) (h : 120 + l ≤ d) (h' : d < 151 + l) :
    monthFromDay d l = 4 := by
  unfold monthFromDay
  omega

theorem monthFromDay_eq_5 (d l : Int) (hl : 0 ≤ l) (h : 151 + l ≤ d) (h' : d < 181 + l) :
    monthFromDay d l = 5 := by
  unfold monthFromDay
  omega

theorem monthFromDay_eq_6 (d l : Int) (hl : 0 ≤ l) (h : 181 + l ≤ d) (h' : d < 212 + l) :
    monthFromDay d l = 6 := by
  unfold monthFromDay
  omega

theorem monthFromDay_eq_7 (d l : Int) (hl : 0 ≤ l) (h : 212 + l ≤ d) (h' : d < 243 + l) :
    monthFromDay d l = 7 := by
  unfold monthFromDay
  omega

theorem monthFromDay_eq_8 (d l : Int) (hl : 0 ≤ l) (h : 243 + l ≤ d) (h' : d < 273 + l) :
    monthFromDay d l = 8 := by
  unfold monthFromDay
  omega

theorem monthFromDay_eq_9 (d l : Int) (hl : 0 ≤ l) (h : 273 + l ≤ d) (h' : d < 304 + l) :
    monthFromDay d l = 9 := by
  unfold monthFromDay
  omega

theorem monthFromDay_eq_10 (d l : Int) (hl : 0 ≤ l) (h : 304 + l ≤ d) (h' : d < 334 + l) :
    monthFromDay d l = 10 := by
  unfold monthFromDay
  omega

theorem monthFromDay_eq_11 (d l : Int) (hl : 0 ≤ l) (h : 334 + l ≤ d) :
    monthFromDay d l = 11 := by
  unfold monthFromDay
  omega

theorem table_range (d l : Int) (hl : l = 0 ∨ l = 1) (h0 : 0 ≤ d) (h1 : d < 365 + l) :
    1 ≤ d - monthStart (monthFromDay d l) l + 1 ∧
    d - monthStart (monthFromDay d l) l + 1 ≤
      (if monthFromDay d l + 1 = 2 then 28 + l
       else if monthFromDay d l + 1 = 4 ∨ monthFromDay d l + 1 = 6 ∨ monthFromDay d l + 1 = 9
         ∨ monthFromDay d l + 1 = 11 then 30 else 31) := by
  have hl0 : 0 ≤ l := by omega
  by_cases c0 : d < 31
  · rw [monthFromDay_eq_0 d l c0]
    norm_num [monthStart]
    omega
  by_cases c1 : d < 59 + l
  · rw [monthFromDay_eq_1 d l (by omega) c1]
    norm_num [monthStart]
    omega
  by_cases c2 : d < 90 + l
  · rw [monthFromDay_eq_2 d l hl0 (by omega) c2]
    norm_num [monthStart]
    omega
  by_cases c3 : d < 120 + l
  · rw [monthFromDay_eq_3 d l hl0 (by omega) c3]
    norm_num [monthStart]
    omega
  by_cases c4 : d < 151 + l
  · rw [monthFromDay_eq_4 d l hl0 (by omega) c4]
    norm_num [monthStart]
    omega
  by_cases c5 : d < 181 + l
  · rw [monthFromDay_eq_5 d l hl0 (by omega) c5]
    norm_num [monthStart]
    omega
  by_cases c6 : d < 212 + l
  · rw [monthFromDay_eq_6 d l hl0 (by omega) c6]
    norm_num [monthStart]
    omega
  by_cases c7 : d < 243 + l
  · rw [monthFromDay_eq_7 d l hl0 (by omega) c7]
    norm_num [monthStart]
    omega
  by_cases c8 : d < 273 + l
  · rw [monthFromDay_eq_8 d l hl0 (by omega) c8]
    norm_num [monthStart]
    omega
  by_cases c9 : d < 304 + l
  · rw [monthFromDay_eq_9 d l hl0 (by omega) c9]
    norm_num [monthStart]
    omega
  by_cases c10 : d < 334 + l
  · rw [monthFromDay_eq_10 d l hl0 (by omega) c10]
    norm_num [monthStart]
    omega
  rw [monthFromDay_eq_11 d l hl0 (by omega)]
  norm_num [monthStart]
  omega

theorem DateFromTime_range (t : Int) :
    1 ≤ DateFromTime t ∧ DateFromTime t ≤ daysInMonth (YearFromTime t) (MonthFromTime t + 1) := by
  have h0 := DayWithinYear_nonneg t
  have h1 := DayWithinYear_lt t
  have hl := InLeapYear_cases t
  have := table_range (DayWithinYear t) (InLeapYear t) (by omega) h0 (by omega)
  unfold DateFromTime daysInMonth MonthFromTime
  rcases hl with ⟨hl, hd⟩ | ⟨hl, hd⟩ <;> simp only [hl, hd] at this ⊢ <;> simpa using this

theorem YearFromTime_range (t : Int) (hlo : -719528 ≤ Day t) (hhi : Day t ≤ 2932896) :
    0 ≤ YearFromTime t ∧ YearFromTime t ≤ 9999 := by
  have h1 := DayFromYear_YearFromTime_le t
  have h2 := lt_DayFromYear_YearFromTime_succ t
  constructor
  · by_contra hneg
    have : DayFromYear (YearFromTime t + 1) ≤ DayFromYear 0 := DayFromYear_mono (by omega)
    have e : DayFromYear 0 = -719528 := by decide
    omega
  · by_contra hneg
    have : DayFromYear 10000 ≤ DayFromYear (YearFromTime t) := DayFromYear_mono (by omega)
    have e : DayFromYear 10000 = 2932897 := by decide
    omega

theorem calendarDate_slice_isoChars (t : Int) (hlo : -719528 ≤ Day t) (hhi : Day t ≤ 2932896) :
    calendarDate (slice (String.mk (isoChars t)) 0 10) = some (utcCalendarDate t) := by
  obtain ⟨hy0, hy⟩ := YearFromTime_range t hlo hhi
  obtain ⟨hd1, hd⟩ := DateFromTime_range t
  obtain ⟨hm0, hm⟩ := MonthFromTime_range t
  rw [slice_isoChars t hy0 hy, calendarDate_mk _ _ _ hy0 hy (by omega) (by omega) hd1 hd]
  rfl

/-! ## The loop of the trend generator -/

theorem Day_sub_days (t i : Int) : Day (t - i * msPerDay) = Day t - i := by
  unfold Day msPerDay
  omega

theorem TimeClip_of_Day_range (t : Int) (hlo : -100000000 ≤ Day t) (hhi : Day t < 100000000) :
    TimeClip t = some t := by
  unfold Day msPerDay at *
  unfold TimeClip
  rw [if_pos]
  omega

theorem dateAt_fixedZone (off today : Int) (i : Nat) :
    dateAt (fixedZone off) today i = TimeClip (today - (i : Int) * msPerDay) :=
  setDate_fixedZone off today i

/-- The point pushed for the index `i` when the date of the iteration is valid. -/
theorem trendPointAt_of_dateAt (sinTerm : SinTerm) (tz : TimeZone) (today : Int) (days i : Nat)
    (t : Int) (h : dateAt tz today i = some t) :
    trendPointAt sinTerm tz today days i
      = .ok { date := slice (String.mk (isoChars t)) 0 10,
              applications := applicationsAt sinTerm days i } := by
  unfold trendPointAt
  simp only [h, toISOString]

theorem trendPointAt_of_dateAt_none (sinTerm : SinTerm) (tz : TimeZone) (today : Int)
    (days i : Nat) (h : dateAt tz today i = none) :
    trendPointAt sinTerm tz today days i = .error "RangeError: Invalid time value" := by
  unfold trendPointAt
  simp only [h, toISOString]

theorem generateTrendsLoop_zero (sinTerm : SinTerm) (tz : TimeZone) (today : Int) (days : Nat)
    (data : List TrendPoint) :
    generateTrendsLoop sinTerm tz today days 0 data = .ok data := rfl

theorem generateTrendsLoop_succ (sinTerm : SinTerm) (tz : TimeZone) (today : Int) (days n : Nat)
    (data : List TrendPoint) :
    generateTrendsLoop sinTerm tz today days (n + 1) data =
      match trendPointAt sinTerm tz today days n with
      | .error e => .error e
      | .ok p => generateTrendsLoop sinTerm tz today days n (data ++ [p]) := rfl

/-- Whatever the loop returns, every point it pushed has the applications of
its index. -/
theorem trendPointAt_applications (sinTerm : SinTerm) (tz : TimeZone) (today : Int)
    (days i : Nat) (p : TrendPoint) (h : trendPointAt sinTerm tz today days i = .ok p) :
    p.applications = applicationsAt sinTerm days i := by
  unfold trendPointAt at h
  simp only at h
  split at h
  · cases h
  · cases h
    rfl

/-- The loop succeeds when every remaining iteration does, and then appends
the points of the indices `n - 1, ..., 0` in that order. -/
theorem generateTrendsLoop_ok (sinTerm : SinTerm) (tz : TimeZone) (today : Int) (days : Nat)
    (f : Nat → TrendPoint) :
    ∀ (n : Nat) (data : List TrendPoint),
      (∀ i, i < n → trendPointAt sinTerm tz today days i = .ok (f i)) →
      generateTrendsLoop sinTerm tz today days n data
        = .ok (data ++ (List.range n).reverse.map f) := by
  intro n
  induction n with
  | zero => intro data _; simp [generateTrendsLoop_zero]
  | succ n ih =>
      intro data h
      rw [generateTrendsLoop_succ, h n (Nat.lt_succ_self n)]
      simp only
      rw [ih (data ++ [f n]) (fun i hi => h i (Nat.lt_succ_of_lt hi))]
      simp [List.range_succ]

/-- Conversely, when the loop returns, every iteration succeeded. -/
theorem generateTrendsLoop_inv (sinTerm : SinTerm) (tz : TimeZone) (today : Int) (days : Nat) :
    ∀ (n : Nat) (data r : List TrendPoint),
      generateTrendsLoop sinTerm tz today days n data = .ok r →
      ∃ f : Nat → TrendPoint,
        (∀ i, i < n → trendPointAt sinTerm tz today days i = .ok (f i)) ∧
        r = data ++ (List.range n).reverse.map f := by
  intro n
  induction n with
  | zero =>
      intro data r h
      simp only [generateTrendsLoop_zero, Except.ok.injEq] at h
      exact ⟨fun _ => ⟨"", 0⟩, by simp, by simp [h]⟩
  | succ n ih =>
      intro data r h
      rw [generateTrendsLoop_succ] at h
      split at h
      · cases h
      · rename_i p hp
        obtain ⟨f, hf, hr⟩ := ih _ _ h
        refine ⟨fun i => if i = n then p else f i, ?_, ?_⟩
        · intro i hi
          by_cases e : i = n
          · simp [e, hp]
          · simp only [e, if_false]
            exact hf i (by omega)
        · rw [hr]
          simp only [List.range_succ, List.reverse_append, List.reverse_cons, List.reverse_nil,
            List.nil_append, List.singleton_append, List.map_cons, if_true, List.append_assoc]
          congr 2
          apply List.map_congr_left
          intro i hi
          have : i < n := by simpa using hi
          simp [Nat.ne_of_lt this]

theorem getElem?_reverse_range_map (f : Nat → TrendPoint) (n k : Nat) (hk : k < n) :
    ((List.range n).reverse.map f)[k]? = some (f (n - 1 - k)) := by
  simp [List.getElem?_reverse, hk]

/-! ## Calendar order -/

theorem monthStart_mono (a b l : Int) (ha : 0 ≤ a) (hab : a ≤ b) (hb : b ≤ 11) (hl : 0 ≤ l) :
    monthStart a l ≤ monthStart b l := by
  unfold monthStart
  omega

/-- The leap flag of a year, as `MakeDay` computes it. -/
theorem leapFlag_cases (y : Int) :
    ((if DaysInYear y = 366 then (1 : Int) else 0) = 0 ∧ DaysInYear y = 365) ∨
    ((if DaysInYear y = 366 then (1 : Int) else 0) = 1 ∧ DaysInYear y = 366) := by
  rcases DaysInYear_cases y with h | h <;> simp [h]

theorem monthStart_next (m y : Int) (hm1 : 1 ≤ m) (hm : m ≤ 12) :
    monthStart (m - 1) (if DaysInYear y = 366 then 1 else 0) + daysInMonth y m
      = if m = 12 then DaysInYear y else monthStart m (if DaysInYear y = 366 then 1 else 0) := by
  unfold daysInMonth
  rcases leapFlag_cases y with ⟨h, h'⟩ | ⟨h, h'⟩ <;> rw [h, h'] <;>
    interval_cases m <;> norm_num [monthStart]

/-- A calendar date whose month and day exist. -/
theorem MakeDay_of_month (y m d : Int) (hm1 : 1 ≤ m) (hm : m ≤ 12) :
    MakeDay y (m - 1) d
      = DayFromYear y + monthStart (m - 1) (if DaysInYear y = 366 then 1 else 0) + d - 1 := by
  have h1 : (m - 1) / 12 = 0 := by omega
  have h2 : (m - 1) % 12 = m - 1 := by omega
  unfold MakeDay
  simp only [h1, h2, add_zero]

theorem monthStart_nonneg (m l : Int) (hl : 0 ≤ l) : 0 ≤ monthStart m l := by
  unfold monthStart
  omega

/-- The offset of a well-formed date within its year. -/
theorem yearOffset_range (y m d : Int) (hm1 : 1 ≤ m) (hm : m ≤ 12) (hd1 : 1 ≤ d)
    (hd : d ≤ daysInMonth y m) :
    0 ≤ monthStart (m - 1) (if DaysInYear y = 366 then 1 else 0) + d - 1 ∧
    monthStart (m - 1) (if DaysInYear y = 366 then 1 else 0) + d - 1 < DaysInYear y := by
  have hn := monthStart_next m y hm1 hm
  have h0 := monthStart_nonneg (m - 1) (if DaysInYear y = 366 then 1 else 0)
    (by rcases leapFlag_cases y with h | h <;> omega)
  constructor
  · omega
  · by_cases h12 : m = 12
    · rw [if_pos h12] at hn; omega
    · rw [if_neg h12] at hn
      have hle : monthStart m (if DaysInYear y = 366 then 1 else 0)
          ≤ monthStart 11 (if DaysInYear y = 366 then 1 else 0) :=
        monthStart_mono _ _ _ (by omega) (by omega) (by omega)
          (by rcases leapFlag_cases y with h | h <;> omega)
      have h11 : monthStart 11 (if DaysInYear y = 366 then 1 else 0) < DaysInYear y := by
        rcases leapFlag_cases y with ⟨h, h'⟩ | ⟨h, h'⟩ <;> rw [h, h'] <;> norm_num [monthStart]
      omega

/-- Calendar order agrees with the order of day numbers. -/
theorem MakeDay_le_iff (a b : CalendarDate)
    (am1 : 1 ≤ a.month) (am : a.month ≤ 12) (ad1 : 1 ≤ a.day)
    (ad : a.day ≤ daysInMonth a.year a.month)
    (bm1 : 1 ≤ b.month) (bm : b.month ≤ 12) (bd1 : 1 ≤ b.day)
    (bd : b.day ≤ daysInMonth b.year b.month) :
    MakeDay a.year (a.month - 1) a.day ≤ MakeDay b.year (b.month - 1) b.day
      ↔ a.le b = true := by
  rw [MakeDay_of_month _ _ _ am1 am, MakeDay_of_month _ _ _ bm1 bm]
  have ha := yearOffset_range a.year a.month a.day am1 am ad1 ad
  have hb := yearOffset_range b.year b.month b.day bm1 bm bd1 bd
  have hsa := DayFromYear_succ a.year
  have hsb := DayFromYear_succ b.year
  simp only [CalendarDate.le, decide_eq_true_eq]
  rcases lt_trichotomy a.year b.year with hy | hy | hy
  · have := DayFromYear_mono (show a.year + 1 ≤ b.year by omega)
    constructor
    · intro _; exact Or.inl hy
    · intro _; omega
  · rw [hy] at ha ad ⊢
    have hna := monthStart_next a.month b.year am1 am
    have hnb := monthStart_next b.month b.year bm1 bm
    have hl0 : (0 : Int) ≤ (if DaysInYear b.year = 366 then 1 else 0) := by
      rcases leapFlag_cases b.year with h | h <;> omega
    generalize (if DaysInYear b.year = 366 then (1 : Int) else 0) = l at *
    rcases lt_trichotomy a.month b.month with hm | hm | hm
    · have hle := monthStart_mono a.month (b.month - 1) l (by omega) (by omega) (by omega) hl0
      rw [if_neg (by omega)] at hna
      constructor
      · intro _; exact Or.inr ⟨rfl, Or.inl hm⟩
      · intro _; omega
    · rw [hm]
      constructor
      · intro h; exact Or.inr ⟨rfl, Or.inr ⟨rfl, by omega⟩⟩
      · intro h
        rcases h with h | ⟨_, h | ⟨_, h⟩⟩ <;> omega
    · have hle := monthStart_mono b.month (a.month - 1) l (by omega) (by omega) (by omega) hl0
      rw [if_neg (by omega)] at hnb
      constructor
      · intro _; omega
      · intro h
        rcases h with h | ⟨_, h | ⟨h, _⟩⟩ <;> omega
  · have := DayFromYear_mono (show b.year + 1 ≤ a.year by omega)
    constructor
    · intro _; omega
    · intro h
      rcases h with h | ⟨h, _⟩ <;> omega

theorem CalendarDate_le_antisymm (a b : CalendarDate) (h1 : a.le b = true) (h2 : b.le a = true) :
    a = b := by
  simp only [CalendarDate.le, decide_eq_true_eq] at h1 h2
  cases a; cases b
  simp only [CalendarDate.mk.injEq] at *
  omega

/-- Two well-formed dates with the same day number are the same date. -/
theorem MakeDay_injective (a b : CalendarDate)
    (am1 : 1 ≤ a.month) (am : a.month ≤ 12) (ad1 : 1 ≤ a.day)
    (ad : a.day ≤ daysInMonth a.year a.month)
    (bm1 : 1 ≤ b.month) (bm : b.month ≤ 12) (bd1 : 1 ≤ b.day)
    (bd : b.day ≤ daysInMonth b.year b.month)
    (h : MakeDay a.year (a.month - 1) a.day = MakeDay b.year (b.month - 1) b.day) : a = b :=
  CalendarDate_le_antisymm a b
    ((MakeDay_le_iff a b am1 am ad1 ad bm1 bm bd1 bd).mp (le_of_eq h))
    ((MakeDay_le_iff b a bm1 bm bd1 bd am1 am ad1 ad).mp (le_of_eq h.symm))

/-! ## The next calendar date -/

theorem utcCalendarDate_wellFormed (t : Int) :
    1 ≤ (utcCalendarDate t).month ∧ (utcCalendarDate t).month ≤ 12 ∧
    1 ≤ (utcCalendarDate t).day ∧
    (utcCalendarDate t).day ≤ daysInMonth (utcCalendarDate t).year (utcCalendarDate t).month := by
  have hm := MonthFromTime_range t
  have hd := DateFromTime_range t
  simp only [utcCalendarDate]
  exact ⟨by omega, by omega, hd.1, hd.2⟩

theorem MakeDay_utcCalendarDate (t : Int) :
    MakeDay (utcCalendarDate t).year ((utcCalendarDate t).month - 1) (utcCalendarDate t).day
      = Day t := by
  simp only [utcCalendarDate, add_sub_cancel_right, MakeDay_fields, sub_self, add_zero]

theorem nextCalendarDate_wellFormed (c : CalendarDate) (m1 : 1 ≤ c.month) (m : c.month ≤ 12)
    (d1 : 1 ≤ c.day) :
    1 ≤ (nextCalendarDate c).month ∧ (nextCalendarDate c).month ≤ 12 ∧
    1 ≤ (nextCalendarDate c).day ∧
    (nextCalendarDate c).day ≤ daysInMonth (nextCalendarDate c).year (nextCalendarDate c).month := by
  have hpos : ∀ y m : Int, 1 ≤ daysInMonth y m := by
    intro y m
    unfold daysInMonth
    split_ifs <;> omega
  unfold nextCalendarDate
  split_ifs with h1 h2
  · exact ⟨m1, m, by simp only; omega, by simp only; omega⟩
  · exact ⟨by simp only; omega, by simp only; omega, le_refl _, hpos _ _⟩
  · exact ⟨le_refl _, by norm_num, le_refl _, hpos _ _⟩

theorem MakeDay_nextCalendarDate (c : CalendarDate) (m1 : 1 ≤ c.month) (m : c.month ≤ 12)
    (d : c.day ≤ daysInMonth c.year c.month) :
    MakeDay (nextCalendarDate c).year ((nextCalendarDate c).month - 1) (nextCalendarDate c).day
      = MakeDay c.year (c.month - 1) c.day + 1 := by
  have hn := monthStart_next c.month c.year m1 m
  by_cases h1 : c.day < daysInMonth c.year c.month
  · have e : nextCalendarDate c = { c with day := c.day + 1 } := by
      simp only [nextCalendarDate, h1, if_true]
    rw [e]
    simp only
    rw [MakeDay_of_month _ _ _ m1 m, MakeDay_of_month _ _ _ m1 m]
    omega
  · by_cases h2 : c.month < 12
    · have e : nextCalendarDate c = { c with month := c.month + 1, day := 1 } := by
        simp only [nextCalendarDate, h1, h2, if_true, if_false]
      rw [e]
      simp only
      rw [MakeDay_of_month _ _ _ (by omega) (by omega), MakeDay_of_month _ _ _ m1 m]
      simp only [add_sub_cancel_right]
      rw [if_neg (show ¬ c.month = 12 by omega)] at hn
      omega
    · have e : nextCalendarDate c = { year := c.year + 1, month := 1, day := 1 } := by
        simp only [nextCalendarDate, h1, h2, if_false]
      have h12 : c.month = 12 := by omega
      rw [if_pos h12] at hn
      have hs := DayFromYear_succ c.year
      have h0 : ∀ l : Int, monthStart (1 - 1) l = 0 := fun l => by simp [monthStart]
      rw [e]
      simp only
      rw [MakeDay_of_month _ _ _ (le_refl _) (by norm_num), MakeDay_of_month _ _ _ m1 m, h0]
      omega

/-- The UTC calendar date of a time value one day later is the next calendar
date. -/
theorem utcCalendarDate_next (t u : Int) (h : Day u = Day t + 1) :
    utcCalendarDate u = nextCalendarDate (utcCalendarDate t) := by
  obtain ⟨a1, a2, a3, a4⟩ := utcCalendarDate_wellFormed t
  obtain ⟨b1, b2, b3, b4⟩ := utcCalendarDate_wellFormed u
  obtain ⟨c1, c2, c3, c4⟩ := nextCalendarDate_wellFormed (utcCalendarDate t) a1 a2 a3
  apply MakeDay_injective _ _ b1 b2 b3 b4 c1 c2 c3 c4
  rw [MakeDay_utcCalendarDate, MakeDay_nextCalendarDate _ a1 a2 a4, MakeDay_utcCalendarDate, h]

/-! ## Daily series -/

theorem Day_range_of_YearFromTime (t : Int) :
    (0 ≤ YearFromTime t → -719528 ≤ Day t) ∧ (YearFromTime t ≤ 9999 → Day t ≤ 2932896) := by
  have h1 := DayFromYear_YearFromTime_le t
  have h2 := lt_DayFromYear_YearFromTime_succ t
  constructor
  · intro h
    have : DayFromYear 0 ≤ DayFromYear (YearFromTime t) := DayFromYear_mono h
    have e : DayFromYear 0 = -719528 := by decide
    omega
  · intro h
    have : DayFromYear (YearFromTime t + 1) ≤ DayFromYear 10000 := DayFromYear_mono (by omega)
    have e : DayFromYear 10000 = 2932897 := by decide
    omega

/-- In a zone of constant offset, while the days stay within the range of
`Date`, the point of index `i` carries the UTC date of `today - i` days. -/
theorem trendPointAt_fixedZone (sinTerm : SinTerm) (off today : Int) (days i : Nat)
    (hlo : -100000000 ≤ Day today - (i : Int)) (hhi : Day today < 100000000) :
    trendPointAt sinTerm (fixedZone off) today days i
      = .ok { date := slice (String.mk (isoChars (today - (i : Int) * msPerDay))) 0 10,
              applications := applicationsAt sinTerm days i } := by
  apply trendPointAt_of_dateAt
  rw [dateAt_fixedZone]
  apply TimeClip_of_Day_range <;> rw [Day_sub_days] <;> omega

theorem datesContiguous_reverse_range_map (f : Nat → TrendPoint) :
    ∀ n : Nat, (∀ i, i + 1 < n → consecutiveDates (f (i + 1)) (f i) = true) →
      datesContiguous ((List.range n).reverse.map f) = true := by
  intro n
  induction n with
  | zero => intro _; rfl
  | succ n ih =>
      intro h
      cases n with
      | zero => rfl
      | succ m =>
          have ih' := ih (fun i hi => h i (by omega))
          simp only [List.range_succ, List.reverse_append, List.reverse_cons, List.reverse_nil,
            List.nil_append, List.singleton_append, List.map_cons, List.cons_append] at ih' ⊢
          simp only [datesContiguous, Bool.and_eq_true]
          exact ⟨h m (by omega), ih'⟩

theorem reverse_range_map_succ_succ (f : Nat → TrendPoint) (n : Nat) :
    (List.range (n + 2)).reverse.map f = f (n + 1) :: f n :: (List.range n).reverse.map f := by
  simp [List.range_succ]

theorem getLast?_reverse_range_map (f : Nat → TrendPoint) (n : Nat) :
    ((List.range (n + 1)).reverse.map f).getLast? = some (f 0) := by
  rw [List.getLast?_map, List.getLast?_reverse]
  simp [List.head?_range]

/-! ## The trend generator: dates -/

theorem YearFromTime_congr (a b : Int) (h : Day a = Day b) : YearFromTime a = YearFromTime b := by
  unfold YearFromTime
  rw [h]

theorem MonthFromTime_congr (a b : Int) (h : Day a = Day b) :
    MonthFromTime a = MonthFromTime b := by
  unfold MonthFromTime DayWithinYear InLeapYear
  rw [h, YearFromTime_congr a b h]

theorem DateFromTime_congr (a b : Int) (h : Day a = Day b) : DateFromTime a = DateFromTime b := by
  unfold DateFromTime DayWithinYear InLeapYear
  rw [h, YearFromTime_congr a b h, MonthFromTime_congr a b h]

/-- The UTC calendar date of a time value depends on its day number only. -/
theorem utcCalendarDate_congr (a b : Int) (h : Day a = Day b) :
    utcCalendarDate a = utcCalendarDate b := by
  unfold utcCalendarDate
  rw [YearFromTime_congr a b h, MonthFromTime_congr a b h, DateFromTime_congr a b h]

/-- In every zone `setDate(getDate() - i)` keeps the local wall-clock time and
moves the local date back by `i` days; the result is that local time read
back as UTC. -/
theorem dateAt_eq (tz : TimeZone) (today : Int) (i : Nat) :
    dateAt tz today i = TimeClip (UTC tz (LocalTime tz today - (i : Int) * msPerDay)) := by
  have e : (Day (LocalTime tz today)
        + (DateFromTime (LocalTime tz today) - (i : Int) - DateFromTime (LocalTime tz today)))
          * msPerDay + TimeWithinDay (LocalTime tz today)
      = LocalTime tz today - (i : Int) * msPerDay := by
    have := Day_add_TimeWithinDay (LocalTime tz today)
    linarith
  simp only [dateAt, setDate, getDate, Option.map, MakeDate, MakeDay_fields, e]

/-- The time value of the iteration `i` is `today` moved back by `i` days and
forward by the change of offset. -/
theorem UTC_LocalTime_sub (tz : TimeZone) (today : Int) (i : Nat) :
    UTC tz (LocalTime tz today - (i : Int) * msPerDay)
      = today - (i : Int) * msPerDay + offsetShift tz today i := by
  unfold UTC offsetShift
  unfold LocalTime
  ring

/-- When the change of offset does not carry the time of day across midnight,
the iteration `i` lands on the UTC day `i` days before `today`. -/
theorem Day_UTC_of_keepsUtcDay (tz : TimeZone) (today : Int) (i : Nat)
    (h : keepsUtcDay tz today i = true) :
    Day (UTC tz (LocalTime tz today - (i : Int) * msPerDay)) = Day today - (i : Int) := by
  rw [UTC_LocalTime_sub]
  simp only [keepsUtcDay, decide_eq_true_eq] at h
  generalize offsetShift tz today i = d at *
  unfold Day TimeWithinDay msPerDay at *
  omega

/-- The condition is exact: the iteration `i` lands on the UTC day `i` days
before `today` only when the change of offset keeps the time of day within
the day. -/
theorem keepsUtcDay_of_Day_UTC (tz : TimeZone) (today : Int) (i : Nat)
    (h : Day (UTC tz (LocalTime tz today - (i : Int) * msPerDay)) = Day today - (i : Int)) :
    keepsUtcDay tz today i = true := by
  rw [UTC_LocalTime_sub] at h
  simp only [keepsUtcDay, decide_eq_true_eq]
  generalize offsetShift tz today i = d at *
  unfold Day TimeWithinDay msPerDay at *
  omega

/-- A zone of constant offset never shifts the day. -/
theorem keepsUtcDay_fixedZone (off today : Int) (i : Nat) :
    keepsUtcDay (fixedZone off) today i = true := by
  simp only [keepsUtcDay, offsetShift, fixedZone, sub_self, add_zero, decide_eq_true_eq]
  unfold TimeWithinDay msPerDay
  omega

/-- Within the range of `Date`, the point of an iteration that lands on the
UTC day `i` days before `today`. -/
theorem trendPointAt_of_keepsUtcDay (sinTerm : SinTerm) (tz : TimeZone) (today : Int)
    (days i : Nat) (hz : keepsUtcDay tz today i = true)
    (hlo : -100000000 ≤ Day today - (i : Int)) (hhi : Day today < 100000000) :
    trendPointAt sinTerm tz today days i
      = .ok { date := slice (String.mk
                (isoChars (UTC tz (LocalTime tz today - (i : Int) * msPerDay)))) 0 10,
              applications := applicationsAt sinTerm days i } := by
  apply trendPointAt_of_dateAt
  rw [dateAt_eq]
  apply TimeClip_of_Day_range <;> rw [Day_UTC_of_keepsUtcDay tz today i hz] <;> omega

/-- The list the generator returns when no change of offset carries the time
of day across midnight. -/
theorem generateTrends_of_keepsUtcDay (sinTerm : SinTerm) (tz : TimeZone) (today : Int)
    (days : Nat) (hz : ∀ i, i < days → keepsUtcDay tz today i = true)
    (hlo : -100000000 ≤ Day today - ((days : Int) - 1)) (hhi : Day today < 100000000) :
    generateTrends sinTerm tz today days
      = .ok ((List.range days).reverse.map fun (i : Nat) =>
          { date := slice (String.mk
              (isoChars (UTC tz (LocalTime tz today - (i : Int) * msPerDay)))) 0 10,
            applications := applicationsAt sinTerm days i }) := by
  unfold generateTrends
  rw [generateTrendsLoop_ok sinTerm tz today days _ days []
    (fun i hi => trendPointAt_of_keepsUtcDay sinTerm tz today days i (hz i hi) (by omega) hhi)]
  rfl

/-- Under a constant offset and within the range of `Date` the generator
returns the points of `today - (days - 1)`, ..., `today` days. -/
theorem generateTrends_fixedZone (sinTerm : SinTerm) (off today : Int) (days : Nat)
    (hlo : -100000000 ≤ Day today - ((days : Int) - 1)) (hhi : Day today < 100000000) :
    generateTrends sinTerm (fixedZone off) today days
      = .ok ((List.range days).reverse.map fun (i : Nat) =>
          { date := slice (String.mk (isoChars (today - (i : Int) * msPerDay))) 0 10,
            applications := applicationsAt sinTerm days i }) := by
  unfold generateTrends
  rw [generateTrendsLoop_ok sinTerm (fixedZone off) today days _ days []
    (fun i hi => trendPointAt_fixedZone sinTerm off today days i (by omega) hhi)]
  rfl

/-- C1 (as amended): for every window size `N ≥ 1`, every host time zone and
every request instant such that (a) the first and the last day of the window
lie in the years 0000 to 9999 and (b) for every offset `i < N` the change of
the host's UTC offset between the request and the same local wall-clock time
`i` days earlier does not carry the request's UTC time of day across midnight
(it is no change at all when the offset is constant over the window),
`generateTrends(N)` returns points whose dates advance by exactly one calendar
day from each point to the next, and the date of the last point is the UTC
calendar date of the request instant. -/
theorem generateTrends_dates_contiguous (sinTerm : SinTerm) (tz : TimeZone) (today : Int)
    (days : Nat) (hN : 1 ≤ days)
    (hlo : 0 ≤ YearFromTime (today - ((days : Int) - 1) * msPerDay))
    (hhi : YearFromTime today ≤ 9999)
    (hz : ∀ i, i < days → keepsUtcDay tz today i = true) :
    ∃ pts, generateTrends sinTerm tz today days = .ok pts ∧
      datesContiguous pts = true ∧ endsOn pts (utcCalendarDate today) = true := by
  have hlo' : -719528 ≤ Day today - ((days : Int) - 1) := by
    have := (Day_range_of_YearFromTime (today - ((days : Int) - 1) * msPerDay)).1 hlo
    rwa [Day_sub_days] at this
  have hhi' := (Day_range_of_YearFromTime today).2 hhi
  have hday : ∀ i : Nat, i < days →
      Day (UTC tz (LocalTime tz today - (i : Int) * msPerDay)) = Day today - (i : Int) :=
    fun i hi => Day_UTC_of_keepsUtcDay tz today i (hz i hi)
  have hdate : ∀ i : Nat, i < days →
      calendarDate (slice (String.mk
          (isoChars (UTC tz (LocalTime tz today - (i : Int) * msPerDay)))) 0 10)
        = some (utcCalendarDate (UTC tz (LocalTime tz today - (i : Int) * msPerDay))) := by
    intro i hi
    apply calendarDate_slice_isoChars <;> rw [hday i hi] <;> omega
  refine ⟨_, generateTrends_of_keepsUtcDay sinTerm tz today days hz (by omega) (by omega),
    ?_, ?_⟩
  · apply datesContiguous_reverse_range_map
    intro i hi
    simp only [consecutiveDates, hdate (i + 1) hi, hdate i (by omega), decide_eq_true_eq,
      Option.some.injEq]
    apply utcCalendarDate_next
    rw [hday i (by omega), hday (i + 1) hi]
    push_cast
    ring
  · obtain ⟨n, rfl⟩ : ∃ n, days = n + 1 := ⟨days - 1, by omega⟩
    simp only [endsOn, getLast?_reverse_range_map, decide_eq_true_eq]
    rw [hdate 0 (by omega)]
    congr 1
    apply utcCalendarDate_congr
    rw [hday 0 (by omega)]
    simp

/-- Witness of C1: a 45-day window requested on 2024-06-15T23:30:00Z (01:30
local time on 2024-06-16) in Europe/Berlin, where summer time holds over the
whole window. -/
theorem generateTrends_dates_contiguous_witness :
    1 ≤ 45 ∧ 0 ≤ YearFromTime (1718494200000 - (((45 : Nat) : Int) - 1) * msPerDay) ∧
    YearFromTime 1718494200000 ≤ 9999 ∧
    (∀ i, i < 45 → keepsUtcDay europeBerlin2024 1718494200000 i = true) ∧
    ∃ pts, generateTrends (fun _ _ => 0) europeBerlin2024 1718494200000 45 = .ok pts ∧
      datesContiguous pts = true ∧ endsOn pts (utcCalendarDate 1718494200000) = true :=
  ⟨by decide, by decide, by decide, by decide,
    generateTrends_dates_contiguous (fun _ _ => 0) europeBerlin2024 1718494200000 45
      (by decide) (by decide) (by decide) (by decide)⟩

/-- C1 as stated fails twice.  In UTC, the window of 739353 days requested
on 2024-04-09T23:30:00Z starts before the year 0000: its first two points both
carry the text `-000001-12`, which is no calendar date.  In Europe/Berlin, the
45-day window requested at that instant (01:30 local time on 2024-04-10)
crosses the change to summer time: the points of index 34 and 35 both carry
`2024-03-31` (the change of offset over 10 days carries 23:30 UTC across
midnight), and the last point carries 2024-04-09, the UTC date, not the local
date of the request. -/
theorem generateTrends_dates_not_contiguous :
    (∃ pts p q, generateTrends (fun _ _ => 0) (fixedZone 0) 1712705400000 739353 = .ok pts ∧
      pts[0]? = some p ∧ pts[1]? = some q ∧ p.date = "-000001-12" ∧ q.date = "-000001-12" ∧
      datesContiguous pts = false) ∧
    (∃ pts p q, generateTrends (fun _ _ => 0) europeBerlin2024 1712705400000 45 = .ok pts ∧
      pts[34]? = some p ∧ pts[35]? = some q ∧ p.date = "2024-03-31" ∧ q.date = "2024-03-31" ∧
      datesContiguous pts = false ∧
      keepsUtcDay europeBerlin2024 1712705400000 10 = false ∧
      pts.getLast? = some ⟨"2024-04-09", 54⟩ ∧
      utcCalendarDate (LocalTime europeBerlin2024 1712705400000) = ⟨2024, 4, 10⟩) := by
  constructor
  · refine ⟨_, ⟨"-000001-12", 60⟩, ⟨"-000001-12", 57⟩,
      generateTrends_fixedZone (fun _ _ => 0) 0 1712705400000 739353 (by decide) (by decide),
      ?_, ?_, rfl, rfl, ?_⟩
    · rw [getElem?_reverse_range_map _ 739353 0 (by decide)]
      rfl
    · rw [getElem?_reverse_range_map _ 739353 1 (by decide)]
      rfl
    · rw [show (739353 : Nat) = 739351 + 2 from rfl, reverse_range_map_succ_succ]
      rfl
  · exact ⟨_, ⟨"2024-03-31", 54⟩, ⟨"2024-03-31", 66⟩, rfl, rfl, rfl, rfl, rfl, rfl, rfl, rfl,
      rfl⟩

/-! ## The trend generator: length and floor -/

/-- When every `Date` of the loop is valid the generator returns one point
per index, in the order `days - 1, ..., 0`. -/
theorem generateTrends_of_valid (sinTerm : SinTerm) (tz : TimeZone) (today : Int) (days : Nat)
    (h : ∀ i, i < days → (dateAt tz today i).isSome = true) :
    ∃ f : Nat → TrendPoint,
      (∀ i, i < days → trendPointAt sinTerm tz today days i = .ok (f i)) ∧
      generateTrends sinTerm tz today days = .ok ((List.range days).reverse.map f) := by
  have hex : ∀ i, ∃ p, i < days → trendPointAt sinTerm tz today days i = .ok p := by
    intro i
    by_cases hi : i < days
    · obtain ⟨t, ht⟩ := Option.isSome_iff_exists.mp (h i hi)
      exact ⟨_, fun _ => trendPointAt_of_dateAt sinTerm tz today days i t ht⟩
    · exact ⟨⟨"", 0⟩, fun hi' => absurd hi' hi⟩
  choose f hf using hex
  refine ⟨f, hf, ?_⟩
  unfold generateTrends
  rw [generateTrendsLoop_ok sinTerm tz today days f days [] hf]
  rfl

set_option maxRecDepth 100000 in
/-- What the handler returns once the generator has returned. -/
theorem handleAdmissionsAnalytics_of_trends (sinTerm : SinTerm) (tz : TimeZone)
    (today stamp : Int) (pts : List TrendPoint)
    (h : generateTrends sinTerm tz today 45 = .ok pts) :
    handleAdmissionsAnalytics sinTerm tz today stamp
      = .ok { totalApplicants := 3110
              verifiedApplicants := 2239
              rejectedApplicants := 560
              perProgram := perProgram
              trends := pts
              generatedAt := String.mk (isoChars stamp) } := by
  unfold handleAdmissionsAnalytics
  simp only [h, toISOString]
  rfl

/-- Conversely the handler returns only when the generator did. -/
theorem handleAdmissionsAnalytics_inv (sinTerm : SinTerm) (tz : TimeZone)
    (today stamp : Int) (snap : AdmissionsSnapshot)
    (h : handleAdmissionsAnalytics sinTerm tz today stamp = .ok snap) :
    generateTrends sinTerm tz today 45 = .ok snap.trends := by
  cases hg : generateTrends sinTerm tz today 45 with
  | error e =>
      unfold handleAdmissionsAnalytics at h
      simp only [hg] at h
      cases h
  | ok pts =>
      rw [handleAdmissionsAnalytics_of_trends sinTerm tz today stamp pts hg] at h
      cases h
      rfl

/-- C2 (as amended): for every window size `N` for which the `Date` of every
iteration is valid (no `setDate` leaves the range of 8.64e15 ms around the
epoch), `generateTrends(N)` returns a list of exactly `N` points; for `N = 45`
the snapshot built by `handleAdmissionsAnalytics` has exactly 45 trend points. -/
theorem generateTrends_length (sinTerm : SinTerm) (tz : TimeZone) (today : Int) (days : Nat)
    (h : ∀ i, i < days → (dateAt tz today i).isSome = true) :
    (∃ pts, generateTrends sinTerm tz today days = .ok pts ∧ pts.length = days) ∧
    (days = 45 → ∀ stamp, ∃ snap,
      handleAdmissionsAnalytics sinTerm tz today stamp = .ok snap ∧ snap.trends.length = 45) := by
  obtain ⟨f, -, hg⟩ := generateTrends_of_valid sinTerm tz today days h
  refine ⟨⟨_, hg, by simp⟩, ?_⟩
  rintro rfl stamp
  exact ⟨_, handleAdmissionsAnalytics_of_trends sinTerm tz today stamp _ hg, by simp⟩

/-- Witness of C2: the 45-day window requested on 2024-04-09T23:30:00Z in
Europe/Berlin. -/
theorem generateTrends_length_witness :
    (∀ i, i < 45 → (dateAt europeBerlin2024 1712705400000 i).isSome = true) ∧
    (∃ pts, generateTrends (fun _ _ => 0) europeBerlin2024 1712705400000 45 = .ok pts ∧
      pts.length = 45) ∧
    (45 = 45 → ∀ stamp, ∃ snap,
      handleAdmissionsAnalytics (fun _ _ => 0) europeBerlin2024 1712705400000 stamp = .ok snap ∧
        snap.trends.length = 45) :=
  ⟨by decide, generateTrends_length (fun _ _ => 0) europeBerlin2024 1712705400000 45 (by decide)⟩

/-- C2 as stated fails: a window of 200000000 days requested on
2024-04-09T23:30:00Z reaches back beyond the earliest `Date`, so `toISOString`
throws in the first iteration and no list is returned. -/
theorem generateTrends_length_counterexample :
    generateTrends (fun _ _ => 0) (fixedZone 0) 1712705400000 200000000
        = .error "RangeError: Invalid time value" ∧
    ¬ ∃ pts, generateTrends (fun _ _ => 0) (fixedZone 0) 1712705400000 200000000 = .ok pts ∧
      pts.length = 200000000 := by
  have h : generateTrends (fun _ _ => 0) (fixedZone 0) 1712705400000 200000000
      = .error "RangeError: Invalid time value" := rfl
  refine ⟨h, ?_⟩
  rintro ⟨pts, hp, -⟩
  rw [h] at hp
  cases hp

/-- C9: every point that `generateTrends(N)` returns has an integer
`applications` of at least 10. -/
theorem generateTrends_applications_ge_ten (sinTerm : SinTerm) (tz : TimeZone) (today : Int)
    (days : Nat) (pts : List TrendPoint)
    (h : generateTrends sinTerm tz today days = .ok pts) :
    ∀ p, p ∈ pts → 10 ≤ p.applications := by
  obtain ⟨f, hf, rfl⟩ := generateTrendsLoop_inv sinTerm tz today days days [] pts h
  intro p hp
  simp only [List.nil_append, List.mem_map, List.mem_reverse, List.mem_range] at hp
  obtain ⟨i, hi, rfl⟩ := hp
  rw [trendPointAt_applications sinTerm tz today days i _ (hf i hi)]
  exact le_max_left _ _

/-- Witness of C9: a 3-day window requested on 2024-04-09T23:30:00Z in UTC,
with the sine term at its lowest value. -/
theorem generateTrends_applications_ge_ten_witness :
    generateTrends (fun _ _ => -40) (fixedZone 0) 1712705400000 3
        = .ok [⟨"2024-04-07", 20⟩, ⟨"2024-04-08", 17⟩, ⟨"2024-04-09", 14⟩] ∧
    ∀ p, p ∈ [(⟨"2024-04-07", 20⟩ : TrendPoint), ⟨"2024-04-08", 17⟩, ⟨"2024-04-09", 14⟩] →
      10 ≤ p.applications :=
  ⟨by rfl,
    generateTrends_applications_ge_ten (fun _ _ => -40) (fixedZone 0) 1712705400000 3 _ (by rfl)⟩

/-! ## The trend generator: single points -/

/-- Parsing the date part of `toISOString` gives midnight UTC of the same day,
whatever the implementation does with other strings. -/
theorem newDateOfString_slice_isoChars (fallback : DateParseFallback) (t : Int)
    (hlo : -719528 ≤ Day t) (hhi : Day t ≤ 2932896) :
    newDateOfString fallback (slice (String.mk (isoChars t)) 0 10)
      = some (Day t * msPerDay) := by
  unfold newDateOfString
  rw [calendarDate_slice_isoChars t hlo hhi]
  simp only [MakeDay_utcCalendarDate, MakeDate, add_zero]
  apply TimeClip_of_Day_range <;> unfold Day msPerDay at * <;> omega

/-- The rounded real sine term in the form `round(40 sin(2 pi i / N))`. -/
theorem realSinTerm_eq (i days : Nat) :
    realSinTerm i days = ⌊40 * Real.sin (2 * Real.pi * (i : ℝ) / (days : ℝ)) + 1 / 2⌋ := by
  have e : ((i : ℝ) / (days : ℝ)) * Real.pi * 2 = 2 * Real.pi * (i : ℝ) / (days : ℝ) := by
    ring
  unfold realSinTerm
  rw [e]

/-- C8 (as amended): with `sin` the real sine and `Math.round(x)` as
`floor(x + 1/2)`, for every `N`, every host time zone and every request
instant such that (a) the first and the last day of the window lie in the
years 0000 to 9999 and (b) for every offset `i < N` the change of the host's
UTC offset between the request and the same local wall-clock time `i` days
earlier does not carry the request's UTC time of day across midnight, and for
every index `k < N`, the `k`-th point of `generateTrends(N)` is the point of
the offset `i = N - 1 - k`: its date, read by `new Date`, is midnight UTC of
the request's UTC day minus `i` days, and its applications is
`max(10, 60 + round(40 sin(2 pi i / N)) + ((i mod 5) - 2) * 3)`. -/
theorem generateTrends_getElem (tz : TimeZone) (fallback : DateParseFallback) (today : Int)
    (days k : Nat) (hk : k < days)
    (hlo : 0 ≤ YearFromTime (today - ((days : Int) - 1) * msPerDay))
    (hhi : YearFromTime today ≤ 9999)
    (hz : ∀ i, i < days → keepsUtcDay tz today i = true) :
    ∃ pts p, generateTrends realSinTerm tz today days = .ok pts ∧
      pts[k]? = some p ∧
      newDateOfString fallback p.date
        = some ((Day today - ((days - 1 - k : Nat) : Int)) * msPerDay) ∧
      p.applications = max 10
        (60 + ⌊40 * Real.sin (2 * Real.pi * ((days - 1 - k : Nat) : ℝ) / (days : ℝ)) + 1 / 2⌋
          + ((((days - 1 - k) % 5 : Nat) : Int) - 2) * 3) := by
  have hlo' : -719528 ≤ Day today - ((days : Int) - 1) := by
    have := (Day_range_of_YearFromTime (today - ((days : Int) - 1) * msPerDay)).1 hlo
    rwa [Day_sub_days] at this
  have hhi' := (Day_range_of_YearFromTime today).2 hhi
  have hday := Day_UTC_of_keepsUtcDay tz today (days - 1 - k) (hz _ (by omega))
  refine ⟨_, _, generateTrends_of_keepsUtcDay realSinTerm tz today days hz (by omega) (by omega),
    getElem?_reverse_range_map _ days k hk, ?_, ?_⟩
  · simp only
    rw [newDateOfString_slice_isoChars, hday] <;> rw [hday] <;> omega
  · simp only [applicationsAt, realSinTerm_eq]

/-- Witness of C8: the point of index 34 of the 45-day window requested on
2024-06-15T23:30:00Z in Europe/Berlin, read by a parser that rejects every
string outside the date-time string format. -/
theorem generateTrends_getElem_witness :
    34 < 45 ∧ 0 ≤ YearFromTime (1718494200000 - (((45 : Nat) : Int) - 1) * msPerDay) ∧
    YearFromTime 1718494200000 ≤ 9999 ∧
    (∀ i, i < 45 → keepsUtcDay europeBerlin2024 1718494200000 i = true) ∧
    ∃ pts p, generateTrends realSinTerm europeBerlin2024 1718494200000 45 = .ok pts ∧
      pts[34]? = some p ∧
      newDateOfString (fun _ => none) p.date
        = some ((Day 1718494200000 - ((45 - 1 - 34 : Nat) : Int)) * msPerDay) ∧
      p.applications = max 10
        (60 + ⌊40 * Real.sin (2 * Real.pi * ((45 - 1 - 34 : Nat) : ℝ) / ((45 : Nat) : ℝ)) + 1 / 2⌋
          + ((((45 - 1 - 34) % 5 : Nat) : Int) - 2) * 3) :=
  ⟨by decide, by decide, by decide, by decide,
    generateTrends_getElem europeBerlin2024 (fun _ => none) 1718494200000 45 34 (by decide)
      (by decide) (by decide) (by decide)⟩

/-- C8 as stated fails twice.  In UTC, the first point of the window of
739353 days requested on 2024-04-09T23:30:00Z has the date text `-000001-12`,
which `new Date` reads as the first of December of the year -1
(-62169897600000), not as the day 739352 days before the request
(-62167392000000, the 30th).  In Europe/Berlin, the point of index 34 of the
45-day window requested at that instant has the date `2024-03-31`
(1711843200000), while the request's date minus 10 days is 2024-03-30
(1711756800000): the change of offset over 10 days carries 23:30 UTC across
midnight. -/
theorem generateTrends_getElem_counterexample :
    (∃ pts p, generateTrends realSinTerm (fixedZone 0) 1712705400000 739353 = .ok pts ∧
      pts[0]? = some p ∧ p.date = "-000001-12" ∧
      (∀ fallback : DateParseFallback,
        newDateOfString fallback p.date = some (-62169897600000) ∧
        newDateOfString fallback p.date ≠ some ((Day 1712705400000 - 739352) * msPerDay)) ∧
      (Day 1712705400000 - 739352) * msPerDay = -62167392000000) ∧
    (∃ pts p, generateTrends realSinTerm europeBerlin2024 1712705400000 45 = .ok pts ∧
      pts[34]? = some p ∧ p.date = "2024-03-31" ∧
      (∀ fallback : DateParseFallback,
        newDateOfString fallback p.date = some 1711843200000 ∧
        newDateOfString fallback p.date ≠ some ((Day 1712705400000 - 10) * msPerDay)) ∧
      (Day 1712705400000 - 10) * msPerDay = 1711756800000 ∧
      keepsUtcDay europeBerlin2024 1712705400000 10 = false) := by
  constructor
  · refine ⟨_, ⟨"-000001-12", applicationsAt realSinTerm 739353 739352⟩,
      generateTrends_fixedZone realSinTerm 0 1712705400000 739353 (by decide) (by decide),
      ?_, rfl, ?_, by decide⟩
    · rw [getElem?_reverse_range_map _ 739353 0 (by decide)]
      rfl
    · intro fallback
      have e : newDateOfString fallback "-000001-12" = some (-62169897600000) := rfl
      refine ⟨e, ?_⟩
      show newDateOfString fallback "-000001-12" ≠ _
      rw [e]
      decide
  · obtain ⟨f, hf, hg⟩ := generateTrends_of_valid realSinTerm europeBerlin2024 1712705400000 45
      (by decide)
    have h10 := hf 10 (by decide)
    rw [trendPointAt_of_dateAt realSinTerm europeBerlin2024 1712705400000 45 10
      1711845000000 (by rfl)] at h10
    have hd : (f 10).date = "2024-03-31" := by
      rw [← Except.ok.inj h10]
      rfl
    refine ⟨_, f 10, hg, getElem?_reverse_range_map f 45 34 (by decide), hd, ?_, by decide,
      by decide⟩
    intro fallback
    have e : newDateOfString fallback "2024-03-31" = some 1711843200000 := rfl
    rw [hd]
    refine ⟨e, ?_⟩
    rw [e]
    decide

/-! ## The totals -/

/-- C6: in the snapshot the handler returns, `totalApplicants` is the sum of
the `applications` of the `perProgram` list it returns, which for the fixed
table is 1180 + 640 + 520 + 410 + 360 = 3110. -/
theorem handleAdmissionsAnalytics_total (sinTerm : SinTerm) (tz : TimeZone) (today stamp : Int)
    (snap : AdmissionsSnapshot)
    (h : handleAdmissionsAnalytics sinTerm tz today stamp = .ok snap) :
    snap.totalApplicants = (snap.perProgram.map (·.applications)).sum ∧
    (snap.perProgram.map (·.applications)) = [1180, 640, 520, 410, 360] ∧
    snap.totalApplicants = 1180 + 640 + 520 + 410 + 360 ∧
    snap.totalApplicants = 3110 := by
  have hg := handleAdmissionsAnalytics_inv sinTerm tz today stamp snap h
  rw [handleAdmissionsAnalytics_of_trends sinTerm tz today stamp _ hg] at h
  rw [← Except.ok.inj h]
  exact ⟨rfl, rfl, rfl, rfl⟩

/-- Witness of C6: the request of 2024-04-09T23:30:00Z in UTC. -/
theorem handleAdmissionsAnalytics_total_witness :
    ∃ snap, handleAdmissionsAnalytics (fun _ _ => 0) (fixedZone 0) 1712705400000 1712705400001
        = .ok snap ∧
      snap.totalApplicants = (snap.perProgram.map (·.applications)).sum ∧
      (snap.perProgram.map (·.applications)) = [1180, 640, 520, 410, 360] ∧
      snap.totalApplicants = 1180 + 640 + 520 + 410 + 360 ∧
      snap.totalApplicants = 3110 :=
  ⟨_, handleAdmissionsAnalytics_of_trends _ _ _ _ _ (by rfl),
    handleAdmissionsAnalytics_total (fun _ _ => 0) (fixedZone 0) 1712705400000 1712705400001 _
      (handleAdmissionsAnalytics_of_trends _ _ _ _ _ (by rfl))⟩


/-! ## Derived totals; same-day requests -/

/-- C5: in the snapshot the handler returns, `verifiedApplicants` is 2239, the
nearest integer to `totalApplicants * 0.72 = 2239.2`, and `rejectedApplicants`
is 560, the nearest integer to `totalApplicants * 0.18 = 559.8`. -/
theorem handleAdmissionsAnalytics_verified_rejected (sinTerm : SinTerm) (tz : TimeZone)
    (today stamp : Int) (snap : AdmissionsSnapshot)
    (h : handleAdmissionsAnalytics sinTerm tz today stamp = .ok snap) :
    snap.verifiedApplicants = 2239 ∧ snap.rejectedApplicants = 560 ∧
    snap.verifiedApplicants = round ((snap.totalApplicants : ℚ) * (72 / 100)) ∧
    snap.rejectedApplicants = round ((snap.totalApplicants : ℚ) * (18 / 100)) ∧
    (snap.totalApplicants : ℚ) * (72 / 100) = 22392 / 10 ∧
    (snap.totalApplicants : ℚ) * (18 / 100) = 5598 / 10 := by
  have hg := handleAdmissionsAnalytics_inv sinTerm tz today stamp snap h
  rw [handleAdmissionsAnalytics_of_trends sinTerm tz today stamp _ hg] at h
  rw [← Except.ok.inj h]
  refine ⟨rfl, rfl, ?_, ?_, by norm_num, by norm_num⟩
  · simp only
    rw [eq_comm, round_eq, Int.floor_eq_iff]
    norm_num
  · simp only
    rw [eq_comm, round_eq, Int.floor_eq_iff]
    norm_num

/-- Witness of C5: the request of 2024-04-09T23:30:00Z in UTC. -/
theorem handleAdmissionsAnalytics_verified_rejected_witness :
    ∃ snap, handleAdmissionsAnalytics (fun _ _ => 0) (fixedZone 0) 1712705400000 1712705400001
        = .ok snap ∧
      snap.verifiedApplicants = 2239 ∧ snap.rejectedApplicants = 560 ∧
      snap.verifiedApplicants = round ((snap.totalApplicants : ℚ) * (72 / 100)) ∧
      snap.rejectedApplicants = round ((snap.totalApplicants : ℚ) * (18 / 100)) ∧
      (snap.totalApplicants : ℚ) * (72 / 100) = 22392 / 10 ∧
      (snap.totalApplicants : ℚ) * (18 / 100) = 5598 / 10 :=
  ⟨_, handleAdmissionsAnalytics_of_trends _ _ _ _ _ (by rfl),
    handleAdmissionsAnalytics_verified_rejected (fun _ _ => 0) (fixedZone 0) 1712705400000
      1712705400001 _ (handleAdmissionsAnalytics_of_trends _ _ _ _ _ (by rfl))⟩

/-- C7 fails in Europe/Berlin: the requests of 2024-04-09T22:30:00Z and
2024-04-09T23:30:00Z fall on the same UTC day and on the same local day
(2024-04-10, 00:30 and 01:30), yet the first snapshot starts its trends on
2024-02-25 and the second on 2024-02-26. -/
theorem handleAdmissionsAnalytics_same_day_differs :
    Day 1712701800000 = Day 1712705400000 ∧
    Day (LocalTime europeBerlin2024 1712701800000)
      = Day (LocalTime europeBerlin2024 1712705400000) ∧
    ∃ s1 s2,
      handleAdmissionsAnalytics (fun _ _ => 0) europeBerlin2024 1712701800000 1712701800000
        = .ok s1 ∧
      handleAdmissionsAnalytics (fun _ _ => 0) europeBerlin2024 1712705400000 1712705400000
        = .ok s2 ∧
      s1.perProgram = s2.perProgram ∧
      s1.trends.head? = some ⟨"2024-02-25", 66⟩ ∧
      s2.trends.head? = some ⟨"2024-02-26", 66⟩ ∧
      s1.trends ≠ s2.trends := by
  obtain ⟨p1, g1, h1⟩ : ∃ pts,
      generateTrends (fun _ _ => 0) europeBerlin2024 1712701800000 45 = .ok pts ∧
      pts.head? = some ⟨"2024-02-25", 66⟩ := ⟨_, rfl, rfl⟩
  obtain ⟨p2, g2, h2⟩ : ∃ pts,
      generateTrends (fun _ _ => 0) europeBerlin2024 1712705400000 45 = .ok pts ∧
      pts.head? = some ⟨"2024-02-26", 66⟩ := ⟨_, rfl, rfl⟩
  refine ⟨by decide, by decide, _, _,
    handleAdmissionsAnalytics_of_trends _ _ _ _ p1 g1,
    handleAdmissionsAnalytics_of_trends _ _ _ _ p2 g2, rfl, h1, h2, ?_⟩
  intro h
  simp only at h
  rw [h, h2] at h1
  revert h1
  decide


/-! ## The real sine term -/

/-- The rounded real sine term lies between -40 and 40. -/
theorem realSinTerm_bounds (i days : Nat) : -40 ≤ realSinTerm i days ∧ realSinTerm i days ≤ 40 := by
  unfold realSinTerm
  have h1 := Real.neg_one_le_sin (((i : ℝ) / (days : ℝ)) * Real.pi * 2)
  have h2 := Real.sin_le_one (((i : ℝ) / (days : ℝ)) * Real.pi * 2)
  constructor
  · apply Int.le_floor.mpr
    push_cast
    linarith
  · have : ⌊40 * Real.sin (((i : ℝ) / (days : ℝ)) * Real.pi * 2) + 1 / 2⌋ < 41 := by
      apply Int.floor_lt.mpr
      push_cast
      linarith
    omega

theorem realSinTerm_zero (days : Nat) : realSinTerm 0 days = 0 := by
  unfold realSinTerm
  simp only [Nat.cast_zero, zero_div, zero_mul, Real.sin_zero, mul_zero, zero_add]
  rw [Int.floor_eq_iff]
  norm_num

/-- C10: with `sin` the real sine, for every `N ≥ 1` and every offset
`i < N` the sum `base + noise` lies between 14 and 106, so `Math.max(10, .)`
leaves it unchanged; `N` is not zero as a divisor; and whenever
`generateTrends(N)` returns, each point has `applications = base + noise` of
its offset and the last point (offset 0) has `applications = 54`. -/
theorem generateTrends_realSin_range (days i : Nat) (hN : 1 ≤ days) (hi : i < days) :
    14 ≤ 60 + realSinTerm i days + ((((i % 5 : Nat) : Int) - 2) * 3) ∧
    60 + realSinTerm i days + ((((i % 5 : Nat) : Int) - 2) * 3) ≤ 106 ∧
    applicationsAt realSinTerm days i
      = 60 + realSinTerm i days + ((((i % 5 : Nat) : Int) - 2) * 3) ∧
    (days : ℝ) ≠ 0 ∧
    applicationsAt realSinTerm days 0 = 54 ∧
    ∀ (tz : TimeZone) (today : Int) (pts : List TrendPoint),
      generateTrends realSinTerm tz today days = .ok pts →
      (∀ k p, pts[k]? = some p →
        p.applications = 60 + realSinTerm (days - 1 - k) days
          + (((((days - 1 - k) % 5 : Nat) : Int) - 2) * 3)) ∧
      (∃ p, pts.getLast? = some p ∧ p.applications = 54) := by
  have hb : ∀ j : Nat, 14 ≤ 60 + realSinTerm j days + ((((j % 5 : Nat) : Int) - 2) * 3) ∧
      60 + realSinTerm j days + ((((j % 5 : Nat) : Int) - 2) * 3) ≤ 106 := by
    intro j
    have := realSinTerm_bounds j days
    omega
  have happ : ∀ j : Nat, applicationsAt realSinTerm days j
      = 60 + realSinTerm j days + ((((j % 5 : Nat) : Int) - 2) * 3) := by
    intro j
    unfold applicationsAt
    simp only
    exact max_eq_right (by have := (hb j).1; omega)
  have h54 : applicationsAt realSinTerm days 0 = 54 := by
    rw [happ 0, realSinTerm_zero]
    norm_num
  refine ⟨(hb i).1, (hb i).2, happ i, ?_, h54, ?_⟩
  · exact_mod_cast (show days ≠ 0 by omega)
  · intro tz today pts h
    obtain ⟨f, hf, rfl⟩ := generateTrendsLoop_inv realSinTerm tz today days days [] pts h
    constructor
    · intro k p hk
      have hklt : k < days := by
        have := (List.getElem?_eq_some_iff.mp hk).1
        simpa using this
      simp only [List.nil_append] at hk
      rw [getElem?_reverse_range_map f days k hklt] at hk
      cases hk
      rw [trendPointAt_applications realSinTerm tz today days _ _ (hf _ (by omega)), happ]
    · obtain ⟨n, rfl⟩ : ∃ n, days = n + 1 := ⟨days - 1, by omega⟩
      refine ⟨f 0, ?_, ?_⟩
      · simp only [List.nil_append]
        exact getLast?_reverse_range_map f n
      · rw [trendPointAt_applications realSinTerm tz today (n + 1) 0 _ (hf 0 (by omega)), h54]

/-- Witness of C10: the offset 7 of a 45-day window. -/
theorem generateTrends_realSin_range_witness :
    1 ≤ 45 ∧ 7 < 45 ∧
    14 ≤ 60 + realSinTerm 7 45 + ((((7 % 5 : Nat) : Int) - 2) * 3) ∧
    60 + realSinTerm 7 45 + ((((7 % 5 : Nat) : Int) - 2) * 3) ≤ 106 ∧
    applicationsAt realSinTerm 45 7
      = 60 + realSinTerm 7 45 + ((((7 % 5 : Nat) : Int) - 2) * 3) ∧
    ((45 : Nat) : ℝ) ≠ 0 ∧
    applicationsAt realSinTerm 45 0 = 54 ∧
    ∀ (tz : TimeZone) (today : Int) (pts : List TrendPoint),
      generateTrends realSinTerm tz today 45 = .ok pts →
      (∀ k p, pts[k]? = some p →
        p.applications = 60 + realSinTerm (45 - 1 - k) 45
          + (((((45 - 1 - k) % 5 : Nat) : Int) - 2) * 3)) ∧
      (∃ p, pts.getLast? = some p ∧ p.applications = 54) :=
  ⟨by decide, by decide, generateTrends_realSin_range 45 7 (by decide) (by decide)⟩


/-! ## Parsed dates -/

theorem digitVal_range (c : Char) (n : Int) (h : digitVal c = some n) : 0 ≤ n ∧ n ≤ 9 := by
  unfold digitVal at h
  split_ifs at h <;> simp only [Option.some.injEq, reduceCtorEq] at h <;> omega

/-- What the parser accepts is a date of the years 0000 to 9999 whose month
and day exist. -/
theorem calendarDate_valid (s : String) (c : CalendarDate) (h : calendarDate s = some c) :
    0 ≤ c.year ∧ c.year ≤ 9999 ∧ 1 ≤ c.month ∧ c.month ≤ 12 ∧ 1 ≤ c.day ∧
      c.day ≤ daysInMonth c.year c.month := by
  unfold calendarDate at h
  split at h
  · split at h
    · rename_i a b c' d e f g h' ha hb hc hd he hf hg hh
      have := digitVal_range _ _ ha
      have := digitVal_range _ _ hb
      have := digitVal_range _ _ hc
      have := digitVal_range _ _ hd
      simp only at h
      split_ifs at h with hv
      cases h
      simp only
      exact ⟨by omega, by omega, hv.1, hv.2.1, hv.2.2.1, hv.2.2.2⟩
    · cases h
  · cases h

theorem MakeDay_range (c : CalendarDate) (hy0 : 0 ≤ c.year) (hy : c.year ≤ 9999)
    (m1 : 1 ≤ c.month) (m : c.month ≤ 12) (d1 : 1 ≤ c.day)
    (d : c.day ≤ daysInMonth c.year c.month) :
    -719528 ≤ MakeDay c.year (c.month - 1) c.day ∧ MakeDay c.year (c.month - 1) c.day ≤ 2932896 := by
  rw [MakeDay_of_month _ _ _ m1 m]
  have ho := yearOffset_range c.year c.month c.day m1 m d1 d
  have h0 : DayFromYear 0 ≤ DayFromYear c.year := DayFromYear_mono hy0
  have h1 : DayFromYear (c.year + 1) ≤ DayFromYear 10000 := DayFromYear_mono (by omega)
  have hs := DayFromYear_succ c.year
  have e0 : DayFromYear 0 = -719528 := by decide
  have e1 : DayFromYear 10000 = 2932897 := by decide
  omega

/-- The constructor `new Date(string)` on a valid date-only string, whatever
the implementation does with other strings. -/
theorem newDateOfString_of_calendarDate (fallback : DateParseFallback) (s : String)
    (c : CalendarDate) (h : calendarDate s = some c) :
    newDateOfString fallback s = some (MakeDay c.year (c.month - 1) c.day * msPerDay) := by
  obtain ⟨hy0, hy, m1, m, d1, d⟩ := calendarDate_valid s c h
  have hr := MakeDay_range c hy0 hy m1 m d1 d
  unfold newDateOfString
  simp only [h, MakeDate, add_zero]
  unfold TimeClip
  rw [if_pos]
  unfold msPerDay
  omega

/-- In a zone of constant offset `setHours(23, 59, 59, 999)` on midnight UTC of
day `n` gives a time value of the same UTC day. -/
theorem setHours_fixedZone (off n : Int) (hlo : -719528 ≤ n) (hhi : n ≤ 2932896) :
    ∃ e, setHours (fixedZone off) (some (n * msPerDay)) 23 59 59 999 = some e ∧
      n * msPerDay ≤ e ∧ e < (n + 1) * msPerDay := by
  refine ⟨Day (n * msPerDay + off) * msPerDay + 86399999 - off, ?_, ?_, ?_⟩
  · simp only [setHours, LocalTime, UTC, fixedZone, MakeDate, MakeTime]
    unfold TimeClip
    rw [if_pos]
    · norm_num
    · unfold Day msPerDay
      omega
  · unfold Day msPerDay
    omega
  · unfold Day msPerDay
    omega


/-! ## The date filter -/

/-- The test `d < fromDate` of the filter is the negation of `from ≤ t.date`. -/
theorem dateLt_from (fallback : DateParseFallback) (a b : String) (ca cb : CalendarDate)
    (ha : calendarDate a = some ca) (hb : calendarDate b = some cb) :
    dateLt (newDateOfString fallback a) (newDateOfString fallback b) = !dateStringLe b a := by
  obtain ⟨-, -, am1, am, ad1, ad⟩ := calendarDate_valid a ca ha
  obtain ⟨-, -, bm1, bm, bd1, bd⟩ := calendarDate_valid b cb hb
  have hle := MakeDay_le_iff cb ca bm1 bm bd1 bd am1 am ad1 ad
  rw [newDateOfString_of_calendarDate fallback a ca ha,
    newDateOfString_of_calendarDate fallback b cb hb]
  simp only [dateLt, dateStringLe, ha, hb]
  by_cases h : cb.le ca = true
  · have := hle.mpr h
    rw [h]
    simp only [Bool.not_true, decide_eq_false_iff_not, not_lt]
    unfold msPerDay
    omega
  · have hn : ¬ MakeDay cb.year (cb.month - 1) cb.day ≤ MakeDay ca.year (ca.month - 1) ca.day :=
      fun h' => h (hle.mp h')
    rw [Bool.not_eq_true] at h
    rw [h]
    simp only [Bool.not_false, decide_eq_true_eq]
    unfold msPerDay
    omega

/-- The test `d > end` of the filter is the negation of `t.date ≤ to`, in
every zone of constant offset. -/
theorem dateLt_to (off : Int) (fallback : DateParseFallback) (a b : String)
    (ca cb : CalendarDate) (ha : calendarDate a = some ca) (hb : calendarDate b = some cb) :
    dateLt (setHours (fixedZone off) (newDateOfString fallback b) 23 59 59 999)
        (newDateOfString fallback a)
      = !dateStringLe a b := by
  obtain ⟨-, -, am1, am, ad1, ad⟩ := calendarDate_valid a ca ha
  obtain ⟨by0, by1, bm1, bm, bd1, bd⟩ := calendarDate_valid b cb hb
  have hle := MakeDay_le_iff ca cb am1 am ad1 ad bm1 bm bd1 bd
  have hr := MakeDay_range cb by0 by1 bm1 bm bd1 bd
  obtain ⟨e, he, he1, he2⟩ := setHours_fixedZone off _ hr.1 hr.2
  rw [newDateOfString_of_calendarDate fallback a ca ha,
    newDateOfString_of_calendarDate fallback b cb hb, he]
  simp only [dateLt, dateStringLe, ha, hb]
  by_cases h : ca.le cb = true
  · have := hle.mpr h
    rw [h]
    simp only [Bool.not_true, decide_eq_false_iff_not, not_lt]
    unfold msPerDay at *
    omega
  · have hn : ¬ MakeDay ca.year (ca.month - 1) ca.day ≤ MakeDay cb.year (cb.month - 1) cb.day :=
      fun h' => h (hle.mp h')
    rw [Bool.not_eq_true] at h
    rw [h]
    simp only [Bool.not_false, decide_eq_true_eq]
    unfold msPerDay at *
    omega

theorem calendarDate_empty : calendarDate "" = none := rfl

/-- In a browser whose UTC offset is constant the filter is the calendar-date
filter: for every trend list whose dates are valid `YYYY-MM-DD` strings and
every `from` and `to` (each empty or a valid `YYYY-MM-DD` string),
`filteredTrends` is exactly the sublist, in the original order, of the points
`t` with (`from` empty or `from ≤ t.date`) and (`to` empty or `t.date ≤ to`) as
calendar dates; with both empty it is the whole list; and for the trends
`[{2024-01-01,5},{2024-01-02,7},{2024-01-03,9}]` with `from = to = 2024-01-02`
it is exactly `[{2024-01-02,7}]`. -/
theorem filteredTrends_fixedZone_eq_spec (off : Int) (fallback : DateParseFallback)
    (snap : AdmissionsSnapshot) (fromStr toStr : String)
    (hT : ∀ t, t ∈ snap.trends → (calendarDate t.date).isSome = true)
    (hF : fromStr = "" ∨ (calendarDate fromStr).isSome = true)
    (hTo : toStr = "" ∨ (calendarDate toStr).isSome = true) :
    filteredTrends (fixedZone off) fallback (some snap) fromStr toStr
        = filteredTrendsSpec snap.trends fromStr toStr ∧
    filteredTrends (fixedZone off) fallback (some snap) "" "" = snap.trends ∧
    (snap.trends = [⟨"2024-01-01", 5⟩, ⟨"2024-01-02", 7⟩, ⟨"2024-01-03", 9⟩] →
      filteredTrends (fixedZone off) fallback (some snap) "2024-01-02" "2024-01-02"
        = [⟨"2024-01-02", 7⟩]) := by
  have main : ∀ f t : String, (f = "" ∨ (calendarDate f).isSome = true) →
      (t = "" ∨ (calendarDate t).isSome = true) →
      filteredTrends (fixedZone off) fallback (some snap) f t
        = filteredTrendsSpec snap.trends f t := by
    intro f t hf ht
    unfold filteredTrends filteredTrendsSpec
    apply List.filter_congr
    intro p hp
    obtain ⟨cp, hcp⟩ := Option.isSome_iff_exists.mp (hT p hp)
    have ef : (f = "" ∧ calendarDate f = none) ∨ (f ≠ "" ∧ ∃ c, calendarDate f = some c) := by
      by_cases h : f = ""
      · exact Or.inl ⟨h, by rw [h]; rfl⟩
      · rcases hf with hf | hf
        · exact absurd hf h
        · exact Or.inr ⟨h, Option.isSome_iff_exists.mp hf⟩
    have et : (t = "" ∧ calendarDate t = none) ∨ (t ≠ "" ∧ ∃ c, calendarDate t = some c) := by
      by_cases h : t = ""
      · exact Or.inl ⟨h, by rw [h]; rfl⟩
      · rcases ht with ht | ht
        · exact absurd ht h
        · exact Or.inr ⟨h, Option.isSome_iff_exists.mp ht⟩
    rcases ef with ⟨hf0, -⟩ | ⟨hf1, cf, hcf⟩ <;> rcases et with ⟨ht0, -⟩ | ⟨ht1, ct, hct⟩
    · simp [hf0, ht0]
    · simp [hf0, ht1, dateLt_to off fallback p.date t cp ct hcp hct]
    · simp [hf1, ht0, dateLt_from fallback p.date f cp cf hcp hcf]
    · simp [hf1, ht1, dateLt_from fallback p.date f cp cf hcp hcf,
        dateLt_to off fallback p.date t cp ct hcp hct]
  refine ⟨main fromStr toStr hF hTo, ?_, ?_⟩
  · rw [main "" "" (Or.inl rfl) (Or.inl rfl)]
    simp [filteredTrendsSpec]
  · intro hs
    rw [main "2024-01-02" "2024-01-02" (Or.inr rfl) (Or.inr rfl), hs]
    rfl


/-- An evaluation in a browser at UTC-5: the three-point list filtered to
2024-01-02. -/
theorem filteredTrends_fixedZone_example :
    filteredTrends (fixedZone (-18000000)) (fun _ => none)
        (some ⟨3110, 2239, 560, perProgram,
          [⟨"2024-01-01", 5⟩, ⟨"2024-01-02", 7⟩, ⟨"2024-01-03", 9⟩], ""⟩)
        "2024-01-02" "2024-01-02"
      = [⟨"2024-01-02", 7⟩] :=
  (filteredTrends_fixedZone_eq_spec (-18000000) (fun _ => none)
    ⟨3110, 2239, 560, perProgram,
      [⟨"2024-01-01", 5⟩, ⟨"2024-01-02", 7⟩, ⟨"2024-01-03", 9⟩], ""⟩
    "2024-01-02" "2024-01-02" (by decide) (Or.inr rfl) (Or.inr rfl)).2.2 rfl

/-- C3 fails in Atlantic/Azores on the day summer time ends: with
`to = 2024-10-27` and `from` empty, `new Date(to)` is 2024-10-27T00:00:00Z,
which is local midnight of a day of 25 hours, so `setHours(23, 59, 59, 999)`
gives 2024-10-28T00:59:59.999Z (1730077199999); the point dated 2024-10-28
(midnight UTC, 1730073600000) is not after it and is kept, while the calendar
filter `t.date ≤ to` keeps only the point of 2024-10-27.  The implementation's
own parser plays no part: every string here is a valid `YYYY-MM-DD`. -/
theorem filteredTrends_azores_keeps_next_day :
    ∀ fallback : DateParseFallback,
      newDateOfString fallback "2024-10-27" = some 1729987200000 ∧
      setHours atlanticAzores2024 (newDateOfString fallback "2024-10-27") 23 59 59 999
        = some 1730077199999 ∧
      newDateOfString fallback "2024-10-28" = some 1730073600000 ∧
      filteredTrends atlanticAzores2024 fallback
          (some ⟨3110, 2239, 560, perProgram,
            [⟨"2024-10-27", 5⟩, ⟨"2024-10-28", 7⟩, ⟨"2024-10-29", 9⟩],
            "2024-10-30T12:00:00.000Z"⟩)
          "" "2024-10-27"
        = [⟨"2024-10-27", 5⟩, ⟨"2024-10-28", 7⟩] ∧
      filteredTrendsSpec [⟨"2024-10-27", 5⟩, ⟨"2024-10-28", 7⟩, ⟨"2024-10-29", 9⟩]
          "" "2024-10-27"
        = [⟨"2024-10-27", 5⟩] :=
  fun _ => ⟨rfl, rfl, rfl, rfl, rfl⟩

/-! ## The load transition -/

/-- C4: when the fetch rejects, `load` leaves `data` as it was before the
load and sets `error` to "Failed to fetch analytics"; and a `load` that
changes `data` is one whose fetch succeeded. -/
theorem load_rejected (s : DashboardState) (request : Except String AxiosResponse)
    (reason : String) (h : request = .error reason) :
    (load request s).data = s.data ∧
    (load request s).error = "Failed to fetch analytics" ∧
    (load request s).loading = false ∧
    ∀ request' : Except String AxiosResponse,
      (load request' s).data ≠ s.data → ∃ response, request' = .ok response := by
  subst h
  refine ⟨rfl, rfl, rfl, ?_⟩
  intro request' hne
  cases request' with
  | error e => exact absurd rfl hne
  | ok response => exact ⟨response, rfl⟩

/-- Witness of C4: a rejected refresh after a successful load. -/
theorem load_rejected_witness :
    (load (.error "Network Error")
        (load (.ok ⟨⟨3110, 2239, 560, perProgram, [], "2024-04-09T23:30:00.000Z"⟩⟩)
          DashboardState.initial)).data
      = some ⟨3110, 2239, 560, perProgram, [], "2024-04-09T23:30:00.000Z"⟩ ∧
    (load (.error "Network Error")
        (load (.ok ⟨⟨3110, 2239, 560, perProgram, [], "2024-04-09T23:30:00.000Z"⟩⟩)
          DashboardState.initial)).error
      = "Failed to fetch analytics" :=
  ⟨(load_rejected _ (.error "Network Error") "Network Error" rfl).1.trans rfl,
    (load_rejected _ (.error "Network Error") "Network Error" rfl).2.1⟩

/-! ## Same-day requests in a zone of constant offset -/

/-- The first ten characters of `toISOString` depend on the UTC day only. -/
theorem slice_isoChars_congr (a b : Int) (h : Day a = Day b) :
    slice (String.mk (isoChars a)) 0 10 = slice (String.mk (isoChars b)) 0 10 := by
  have key : ∀ t : Int, slice (String.mk (isoChars t)) 0 10
      = String.mk ((yearChars (YearFromTime t) ++ ['-'] ++ pad2 (MonthFromTime t + 1) ++ ['-']
          ++ pad2 (DateFromTime t)).take 10) := by
    intro t
    unfold slice isoChars yearChars
    split_ifs <;> simp [pad2]
  rw [key a, key b, YearFromTime_congr a b h, MonthFromTime_congr a b h,
    DateFromTime_congr a b h]

/-- In a zone of constant offset two valid request instants of the same UTC
day give the same point at every index. -/
theorem trendPointAt_fixedZone_congr (sinTerm : SinTerm) (off a b : Int) (days i : Nat)
    (ha : a.natAbs ≤ 8640000000000000) (hb : b.natAbs ≤ 8640000000000000)
    (h : Day a = Day b) :
    trendPointAt sinTerm (fixedZone off) a days i
      = trendPointAt sinTerm (fixedZone off) b days i := by
  have hday : Day (a - (i : Int) * msPerDay) = Day (b - (i : Int) * msPerDay) := by
    rw [Day_sub_days, Day_sub_days, h]
  by_cases hv : -100000000 ≤ Day a - (i : Int)
  · have ca : TimeClip (a - (i : Int) * msPerDay) = some (a - (i : Int) * msPerDay) := by
      unfold TimeClip
      rw [if_pos]
      unfold Day msPerDay at *
      omega
    have cb : TimeClip (b - (i : Int) * msPerDay) = some (b - (i : Int) * msPerDay) := by
      unfold TimeClip
      rw [if_pos]
      unfold Day msPerDay at *
      omega
    rw [trendPointAt_of_dateAt sinTerm _ a days i _ ((dateAt_fixedZone off a i).trans ca),
      trendPointAt_of_dateAt sinTerm _ b days i _ ((dateAt_fixedZone off b i).trans cb),
      slice_isoChars_congr _ _ hday]
  · have ca : TimeClip (a - (i : Int) * msPerDay) = none := by
      unfold TimeClip
      rw [if_neg]
      unfold Day msPerDay at *
      omega
    have cb : TimeClip (b - (i : Int) * msPerDay) = none := by
      unfold TimeClip
      rw [if_neg]
      unfold Day msPerDay at *
      omega
    rw [trendPointAt_of_dateAt_none sinTerm _ a days i ((dateAt_fixedZone off a i).trans ca),
      trendPointAt_of_dateAt_none sinTerm _ b days i ((dateAt_fixedZone off b i).trans cb)]

theorem generateTrendsLoop_congr (sinTerm : SinTerm) (tz : TimeZone) (a b : Int) (days : Nat)
    (h : ∀ i, trendPointAt sinTerm tz a days i = trendPointAt sinTerm tz b days i) :
    ∀ (n : Nat) (data : List TrendPoint),
      generateTrendsLoop sinTerm tz a days n data = generateTrendsLoop sinTerm tz b days n data := by
  intro n
  induction n with
  | zero => intro data; rfl
  | succ n ih =>
      intro data
      rw [generateTrendsLoop_succ, generateTrendsLoop_succ, h n]
      cases trendPointAt sinTerm tz b days n with
      | error e => rfl
      | ok p => exact ih _

/-- On a host whose UTC offset is constant, two requests whose instants fall
on the same UTC day get the same `perProgram` and the same `trends` (or both
fail alike); only `generatedAt` can differ. -/
theorem handleAdmissionsAnalytics_fixedZone_same_day (sinTerm : SinTerm) (off : Int)
    (today1 stamp1 today2 stamp2 : Int)
    (h1 : today1.natAbs ≤ 8640000000000000) (h2 : today2.natAbs ≤ 8640000000000000)
    (h : Day today1 = Day today2) :
    (handleAdmissionsAnalytics sinTerm (fixedZone off) today1 stamp1).map
        (fun s => (s.totalApplicants, s.verifiedApplicants, s.rejectedApplicants,
          s.perProgram, s.trends))
      = (handleAdmissionsAnalytics sinTerm (fixedZone off) today2 stamp2).map
        (fun s => (s.totalApplicants, s.verifiedApplicants, s.rejectedApplicants,
          s.perProgram, s.trends)) := by
  have hg : generateTrends sinTerm (fixedZone off) today1 45
      = generateTrends sinTerm (fixedZone off) today2 45 :=
    generateTrendsLoop_congr sinTerm _ today1 today2 45
      (fun i => trendPointAt_fixedZone_congr sinTerm off today1 today2 45 i h1 h2 h) 45 []
  cases hr : generateTrends sinTerm (fixedZone off) today2 45 with
  | error e =>
      unfold handleAdmissionsAnalytics
      simp only [hg, hr]
  | ok pts =>
      rw [handleAdmissionsAnalytics_of_trends sinTerm _ today1 stamp1 pts (hg.trans hr),
        handleAdmissionsAnalytics_of_trends sinTerm _ today2 stamp2 pts hr]
      simp only [Except.map]

/-- Witness: the requests of 22:30 and 23:30 UTC on 2024-04-09 in UTC. -/
theorem handleAdmissionsAnalytics_fixedZone_same_day_witness :
    Day 1712701800000 = Day 1712705400000 ∧
    (handleAdmissionsAnalytics (fun _ _ => 0) (fixedZone 0) 1712701800000 1712701800001).map
        (fun s => (s.totalApplicants, s.verifiedApplicants, s.rejectedApplicants,
          s.perProgram, s.trends))
      = (handleAdmissionsAnalytics (fun _ _ => 0) (fixedZone 0) 1712705400000 1712705400001).map
        (fun s => (s.totalApplicants, s.verifiedApplicants, s.rejectedApplicants,
          s.perProgram, s.trends)) :=
  ⟨by decide, handleAdmissionsAnalytics_fixedZone_same_day (fun _ _ => 0) 0 1712701800000
    1712701800001 1712705400000 1712705400001 (by decide) (by decide) (by decide)⟩

end AdmissionAnalytics
